import Mathlib

set_option maxHeartbeats 1600000

/-! Shallow embedding of the kubetest2-aks deployer (src/deployer/up.go,
src/deployer/build.go, src/deployer/deployer.go).  Go strings are modelled
as lists of byte values; external collaborators (cloud SDK calls, the HTTP
client, subprocesses, the file system) are modelled as environments that
supply the result of each call, and the code is embedded as functions that
also emit a trace of the external actions they perform. -/

/-- Byte values of a string literal (ASCII), as Go sees the bytes of a string. -/
def strBytes (s : String) : List Nat := s.toList.map Char.toNat

/-- Core scanning loop of Go strings.ReplaceAll on byte lists, for a
non-empty pattern: at each position, if the pattern is a prefix of the
remaining input, emit the replacement and skip the matched bytes, otherwise
emit one byte and continue.  Replacements are left-to-right and
non-overlapping, and the emitted replacement text is not rescanned. -/
def scanReplace (pat rep : List Nat) : List Nat → List Nat
  | [] => []
  | c :: rest =>
    if pat.isPrefixOf (c :: rest) then
      rep ++ scanReplace pat rep (rest.drop (pat.length - 1))
    else
      c :: scanReplace pat rep rest
termination_by s => s.length
decreasing_by
  all_goals simp [List.length_drop]
  all_goals omega

/-- Decomposition of the input into the pattern-separated pieces that the
scanReplace scan visits: the input equals the pieces joined by the pattern,
and the scanReplace output equals the pieces joined by the replacement. -/
def splitOnSeq (pat : List Nat) : List Nat → List (List Nat)
  | [] => [[]]
  | c :: rest =>
    if pat.isPrefixOf (c :: rest) then
      [] :: splitOnSeq pat (rest.drop (pat.length - 1))
    else
      match splitOnSeq pat rest with
      | [] => [[c]]
      | p :: ps => (c :: p) :: ps
termination_by s => s.length
decreasing_by
  all_goals simp [List.length_drop]
  all_goals omega

/-- Join a list of pieces with a separator between consecutive pieces. -/
def interseq (sep : List Nat) : List (List Nat) → List Nat
  | [] => []
  | [p] => p
  | p :: q :: ps => p ++ sep ++ interseq sep (q :: ps)

/-- Go strings.ReplaceAll on byte lists.  An empty pattern matches at the
start of the string and after every byte, as in Go. -/
def strReplaceAll (s pat rep : List Nat) : List Nat :=
  if pat = [] then rep ++ s.foldr (fun c acc => c :: (rep ++ acc)) []
  else scanReplace pat rep s

/-- Embedding of the template substitution loops in createAKSWithCustomConfig
(for k, v := range m applies strings.ReplaceAll successively).  Go map
iteration order is unspecified, so the loop is modelled as a fold over the
entries in a given order. -/
def renderTemplate (tmpl : List Nat) (subst : List (List Nat × List Nat)) : List Nat :=
  subst.foldl (fun acc kv => strReplaceAll acc kv.1 kv.2) tmpl

/-- The pattern occurs somewhere in the string. -/
def occursSeq (pat s : List Nat) : Prop := ∃ l r, s = l ++ pat ++ r

/-- Boolean occurrence test, mirroring Go strings.Contains. -/
def containsSeq (pat : List Nat) : List Nat → Bool
  | [] => pat.isEmpty
  | c :: rest => pat.isPrefixOf (c :: rest) || containsSeq pat rest

/-- Conditions under which a replacement of pat cannot create, destroy or
overlap an occurrence of p: pat does not occur inside p, p does not occur
inside pat, no nonempty suffix of pat is a prefix of p, and no nonempty
suffix of p is a prefix of pat. -/
def noOverlapCond (pat p : List Nat) : Prop :=
  ¬ occursSeq pat p ∧ ¬ occursSeq p pat ∧
  (∀ t : List Nat, t ≠ [] → (∃ u, u ++ t = pat) → ¬ ∃ w, t ++ w = p) ∧
  (∀ t : List Nat, t ≠ [] → (∃ u, u ++ t = p) → ¬ ∃ w, t ++ w = pat)

/-- Boolean form of noOverlapCond, decidable on concrete byte lists. -/
def noOverlapb (pat p : List Nat) : Bool :=
  !(containsSeq pat p) && !(containsSeq p pat) &&
  (pat.tails.all fun t => t.isEmpty || !(t.isPrefixOf p)) &&
  (p.tails.all fun t => t.isEmpty || !(t.isPrefixOf pat))

/-- Base64 standard alphabet as byte values: A-Z, a-z, 0-9, plus, slash. -/
def b64alphabet : List Nat :=
  (List.range 26).map (fun i => 65 + i) ++ (List.range 26).map (fun i => 97 + i) ++
    (List.range 10).map (fun i => 48 + i) ++ [43, 47]

/-- Byte value of the base64 digit with index n (n < 64). -/
def b64char (n : Nat) : Nat := b64alphabet.getD n 0

/-- Embedding of base64.StdEncoding.EncodeToString over byte lists, with
standard padding (61 is the byte value of the padding character). -/
def b64encode : List Nat → List Nat
  | [] => []
  | [a] => [b64char (a / 4), b64char (a % 4 * 16), 61, 61]
  | [a, b] => [b64char (a / 4), b64char (a % 4 * 16 + b / 16), b64char (b % 16 * 4), 61]
  | a :: b :: c :: rest =>
    b64char (a / 4) :: b64char (a % 4 * 16 + b / 16) :: b64char (b % 16 * 4 + c / 64) ::
      b64char (c % 64) :: b64encode rest

/-- Configuration values of the deployer: environment variables and flags
read at process start (deployer.go, up.go). -/
structure AKSConfig where
  subscriptionId : List Nat
  resourceGroupName : List Nat
  clusterName : List Nat
  location : List Nat
  clientID : List Nat
  clientSecret : List Nat
  imageRegistry : List Nat

/-- Constant k8sVersion = "1.24.0" from up.go. -/
def k8sVersionBytes : List Nat := strBytes "1.24.0"

/-- The clusterID string built at the top of createAKSWithCustomConfig. -/
def clusterIDBytes (cfg : AKSConfig) : List Nat :=
  strBytes "/subscriptions/" ++ cfg.subscriptionId ++ strBytes "/resourcegroups/" ++
    cfg.resourceGroupName ++
    strBytes "/providers/Microsoft.ContainerService/managedClusters/" ++ cfg.clusterName

/-- Entries of the replacing map in createAKSWithCustomConfig, in the order
they appear in the source map literal (Go map iteration order is
unspecified; see renderTemplate). -/
def replacingList (cfg : AKSConfig) : List (List Nat × List Nat) :=
  [(strBytes "AKS_CLUSTER_ID", clusterIDBytes cfg),
   (strBytes "CLUSTER_NAME", cfg.clusterName),
   (strBytes "AZURE_LOCATION", cfg.location),
   (strBytes "AZURE_CLIENT_ID", cfg.clientID),
   (strBytes "AZURE_CLIENT_SECRET", cfg.clientSecret),
   (strBytes "KUBERNETES_VERSION", k8sVersionBytes)]

/-- Entries of the imageMap in createAKSWithCustomConfig. -/
def imageList (cfg : AKSConfig) (imageTag : List Nat) : List (List Nat × List Nat) :=
  [(strBytes "CUSTOM_CCM_IMAGE",
    cfg.imageRegistry ++ strBytes "/azure-cloud-controller-manager:" ++ imageTag),
   (strBytes "CUSTOM_CNM_IMAGE",
    cfg.imageRegistry ++ strBytes "/azure-cloud-node-manager:" ++ imageTag ++
      strBytes "-linux-amd64")]

/-- The placeholder replaced by the encoded custom configuration. -/
def customConfigPlaceholder : List Nat := strBytes "CUSTOM_CONFIG"

/-- The outer cluster template after the replacing-map substitutions. -/
def renderedClusterConfig (cfg : AKSConfig) (basicLBFile : List Nat) : List Nat :=
  renderTemplate basicLBFile (replacingList cfg)

/-- The inner custom-configuration template after the imageMap substitutions. -/
def renderedCustomConfig (cfg : AKSConfig) (customConfigFile imageTag : List Nat) :
    List Nat :=
  renderTemplate customConfigFile (imageList cfg imageTag)

/-- The request body sent by createAKSWithCustomConfig: the rendered outer
document with every CUSTOM_CONFIG occurrence replaced by the base64 encoding
of the rendered inner document. -/
def aksRequestBody (cfg : AKSConfig) (basicLBFile customConfigFile imageTag : List Nat) :
    List Nat :=
  strReplaceAll (renderedClusterConfig cfg basicLBFile) customConfigPlaceholder
    (b64encode (renderedCustomConfig cfg customConfigFile imageTag))

/-- External actions performed by the Up workflow, in the order performed. -/
inductive UpEvent where
  | credInit
  | createRG
  | getToken
  | makeImages
  | readBasicLB
  | readCustomConfig
  | sentRequest (payload : List Nat)
  | newClusterClient
  | pollAttempt (i : Nat)
  | mkdirKubeconfigDir
  | writeKubeconfig (path contents : List Nat)
  deriving DecidableEq

/-- Environment for createAKSWithCustomConfig: the two template file reads
and the HTTP round trip (transport error, or a status code). -/
structure CreateAKSEnv where
  basicLBFile : Except (List Nat) (List Nat)
  customConfigFile : Except (List Nat) (List Nat)
  httpResponse : List Nat → Except (List Nat) Nat

/-- Embedding of createAKSWithCustomConfig (up.go): read the outer template,
read the inner template, render the request body, send one PUT (the token
goes into the Authorization header), and treat any status of at least 400 as
failure with no retry. -/
def createAKSWithCustomConfig (cfg : AKSConfig) (env : CreateAKSEnv)
    (token imageTag : List Nat) : Except (List Nat) Unit × List UpEvent :=
  match env.basicLBFile with
  | .error e =>
      (.error (strBytes "failed to read cluster config file: " ++ e), [.readBasicLB])
  | .ok basicLB =>
    match env.customConfigFile with
    | .error e =>
        (.error (strBytes "failed to read custom config file: " ++ e),
         [.readBasicLB, .readCustomConfig])
    | .ok customCfg =>
      let payload := aksRequestBody cfg basicLB customCfg imageTag
      match env.httpResponse payload with
      | .error e =>
          (.error (strBytes "failed to send request: " ++ e),
           [.readBasicLB, .readCustomConfig, .sentRequest payload])
      | .ok status =>
        if 400 ≤ status then
          (.error (strBytes "failed to create the AKS cluster"),
           [.readBasicLB, .readCustomConfig, .sentRequest payload])
        else
          (.ok (), [.readBasicLB, .readCustomConfig, .sentRequest payload])

/-- Result of one ListClusterUserCredentials attempt. -/
inductive CredAttempt where
  | ok (kubeconfigs : List (List Nat))
  | err (msg : List Nat)
  deriving DecidableEq

/-- Outcome of the credential polling loop. -/
inductive PollOutcome where
  | ok (attempt : Nat) (kubeconfigs : List (List Nat))
  | timedOut
  | fatal (attempt : Nat) (msg : List Nat)
  deriving DecidableEq

/-- The substring whose presence in an error marks it transient. -/
def msg404 : List Nat := strBytes "404 Not Found"

/-- Poll interval of getAKSKubeconfig, in seconds. -/
def pollIntervalSeconds : Nat := 10

/-- Poll ceiling of getAKSKubeconfig, in seconds. -/
def pollTimeoutSeconds : Nat := 180

/-- Number of attempts wait.PollImmediate(10s, 3min) makes: one immediate
attempt plus one attempt per interval tick within the ceiling. -/
def pollMaxAttempts : Nat := 1 + pollTimeoutSeconds / pollIntervalSeconds

/-- Embedding of the wait.PollImmediate condition loop of getAKSKubeconfig:
a response whose error contains "404 Not Found" is transient and retried on
the next tick; any other error aborts at once; a success ends the loop. -/
def pollCreds (attempts : Nat → CredAttempt) : Nat → Nat → PollOutcome × List UpEvent
  | _, 0 => (.timedOut, [])
  | i, fuel + 1 =>
    match attempts i with
    | .ok ks => (.ok i ks, [.pollAttempt i])
    | .err m =>
      if containsSeq msg404 m then
        let next := pollCreds attempts (i + 1) fuel
        (next.1, .pollAttempt i :: next.2)
      else (.fatal i m, [.pollAttempt i])

/-- Environment for getAKSKubeconfig: client construction, the credential
attempts, and the two file-system calls. -/
structure KubeconfigEnv where
  clientOk : Bool
  attempts : Nat → CredAttempt
  mkdirOk : Bool
  writeOk : Bool

/-- Constant defaultKubeconfigDir from up.go. -/
def defaultKubeconfigDirBytes : List Nat := strBytes "_output/kubetest2-aks/kubeconfig"

/-- Destination path of the kubeconfig file, from the Sprintf in
getAKSKubeconfig. -/
def destPath (cfg : AKSConfig) : List Nat :=
  defaultKubeconfigDirBytes ++ strBytes "/" ++ cfg.resourceGroupName ++ strBytes "_" ++
    cfg.clusterName ++ strBytes ".kubeconfig"

/-- Embedding of getAKSKubeconfig (up.go): construct the client, poll for
credentials, take the first credential entry, create the output directory,
and write the raw bytes to the destination path. -/
def getAKSKubeconfig (cfg : AKSConfig) (env : KubeconfigEnv) :
    Except (List Nat) Unit × List UpEvent :=
  if env.clientOk = false then
    (.error (strBytes "failed to new managed cluster client"), [.newClusterClient])
  else
    let poll := pollCreds env.attempts 0 pollMaxAttempts
    match poll.1 with
    | .timedOut =>
        (.error (strBytes "timed out waiting for the condition"),
         .newClusterClient :: poll.2)
    | .fatal _ m =>
        (.error (strBytes "failed to list cluster user credentials: " ++ m),
         .newClusterClient :: poll.2)
    | .ok _ ks =>
      match ks with
      | [] =>
          (.error (strBytes "failed to find a valid kubeconfig"),
           .newClusterClient :: poll.2)
      | k0 :: _ =>
        if env.mkdirOk = false then
          (.error (strBytes "failed to mkdir the default kubeconfig dir"),
           .newClusterClient :: poll.2 ++ [.mkdirKubeconfigDir])
        else if env.writeOk = false then
          (.error (strBytes "failed to write kubeconfig"),
           .newClusterClient :: poll.2 ++
             [.mkdirKubeconfigDir, .writeKubeconfig (destPath cfg) k0])
        else
          (.ok (),
           .newClusterClient :: poll.2 ++
             [.mkdirKubeconfigDir, .writeKubeconfig (destPath cfg) k0])

/-- Outcome of the Up workflow.  A credential-construction failure calls
klog.Fatalf, which terminates the process (fatalExit). -/
inductive UpOutcome where
  | fatalExit
  | failed (msg : List Nat)
  | succeeded
  deriving DecidableEq

/-- Environment for the whole Up workflow. -/
structure UpEnv where
  credOk : Bool
  rgResult : Except (List Nat) (List Nat)
  tokenResult : Except (List Nat) (List Nat)
  imagesResult : Except (List Nat) (List Nat)
  aksEnv : CreateAKSEnv
  kubeEnv : KubeconfigEnv

/-- Embedding of Up (up.go): credential construction, createResourceGroup,
GetToken, makeImages, createAKSWithCustomConfig, getAKSKubeconfig, each step
aborting the workflow on failure. -/
def upRun (cfg : AKSConfig) (env : UpEnv) : UpOutcome × List UpEvent :=
  if env.credOk = false then (.fatalExit, [.credInit])
  else
    match env.rgResult with
    | .error e =>
        (.failed (strBytes "failed to create the resource group: " ++ e),
         [.credInit, .createRG])
    | .ok _ =>
      match env.tokenResult with
      | .error e =>
          (.failed (strBytes "failed to get token from credential: " ++ e),
           [.credInit, .createRG, .getToken])
      | .ok token =>
        match env.imagesResult with
        | .error e =>
            (.failed (strBytes "failed to create CCM and CNM images: " ++ e),
             [.credInit, .createRG, .getToken, .makeImages])
        | .ok imageTag =>
          let aks := createAKSWithCustomConfig cfg env.aksEnv token imageTag
          match aks.1 with
          | .error e =>
              (.failed (strBytes "failed to create the AKS cluster: " ++ e),
               [.credInit, .createRG, .getToken, .makeImages] ++ aks.2)
          | .ok _ =>
            let kube := getAKSKubeconfig cfg env.kubeEnv
            match kube.1 with
            | .error e =>
                (.failed (strBytes "failed to get AKS cluster kubeconfig: " ++ e),
                 [.credInit, .createRG, .getToken, .makeImages] ++ aks.2 ++ kube.2)
            | .ok _ =>
                (.succeeded,
                 [.credInit, .createRG, .getToken, .makeImages] ++ aks.2 ++ kube.2)

/-- Flags of the build command (build.go). -/
structure BuildOptions where
  target : String
  targetPath : String
  targetTag : String

/-- The fixed component allow-list customConfigComponents of build.go. -/
def customConfigComponents : List (String × String) :=
  [("cloud-provider-azure", "https://github.com/kubernetes-sigs/cloud-provider-azure.git"),
   ("azure-file", "https://github.com/kubernetes-sigs/azurefile-csi-driver.git"),
   ("azure-disk", "https://github.com/kubernetes-sigs/azuredisk-csi-driver.git")]

/-- Lookup of a component in the allow-list. -/
def lookupComponent (t : String) : Option String :=
  (customConfigComponents.find? (fun kv => kv.1 == t)).map (fun kv => kv.2)

/-- Embedding of verifyBuildFlags (build.go): the component must be a key of
the allow-list, and exactly one of TargetPath and TargetTag must be set. -/
def verifyBuildFlags (o : BuildOptions) : Except String Unit :=
  if lookupComponent o.target = none then
    .error ("component " ++ o.target ++ " not supported")
  else if (o.targetPath ≠ "" ∧ o.targetTag ≠ "") ∨ (o.targetPath = "" ∧ o.targetTag = "") then
    .error "only one of TargetPath and TargetTag should be set"
  else .ok ()

/-- External actions of the build command. -/
inductive BuildEvent where
  | gitShow (path : String)
  | makeTarget (path target : String)
  | revParse (path : String)
  | gitClone (url path : String)
  | checkout (ref : String) (ok : Bool)
  deriving DecidableEq

/-- Environment for the build command: subprocess and git library results.
The checkout outcome is recorded in the trace; build.go discards it. -/
structure BuildEnv where
  gitShowResult : Except String Unit
  makeResult : String → Except String Unit
  revParseResult : Except String String
  cloneResult : Except String Unit
  worktreeResult : Except String Unit
  checkoutOk : Bool

/-- The four make targets invoked by makeCCMImages, in source order. -/
def ccmMakeTargets : List String :=
  ["build-ccm-image-amd64", "push-ccm-image-amd64",
   "build-node-image-linux-amd64", "push-node-image-linux-amd64"]

/-- Run the make targets in order, stopping at the first failure. -/
def runMakeTargets (env : BuildEnv) (path : String) :
    List String → Except String Unit × List BuildEvent
  | [] => (.ok (), [])
  | t :: ts =>
    match env.makeResult t with
    | .error e => (.error ("failed to make " ++ t ++ ": " ++ e), [.makeTarget path t])
    | .ok _ =>
      let rest := runMakeTargets env path ts
      (rest.1, .makeTarget path t :: rest.2)

/-- Embedding of makeCCMImages (build.go): git show, the four make targets
in order, then git rev-parse --short=7 HEAD whose captured output is
returned as the image tag. -/
def makeCCMImages (env : BuildEnv) (path : String) :
    Except String String × List BuildEvent :=
  match env.gitShowResult with
  | .error e => (.error ("failed to show commit: " ++ e), [.gitShow path])
  | .ok _ =>
    let mk := runMakeTargets env path ccmMakeTargets
    match mk.1 with
    | .error e => (.error e, .gitShow path :: mk.2)
    | .ok _ =>
      match env.revParseResult with
      | .error e =>
          (.error ("failed to get image tag: " ++ e),
           .gitShow path :: mk.2 ++ [.revParse path])
      | .ok tag => (.ok tag, .gitShow path :: mk.2 ++ [.revParse path])

/-- Embedding of makeCCMImagesByPath (build.go). -/
def makeCCMImagesByPath (env : BuildEnv) (o : BuildOptions) :
    Except String String × List BuildEvent :=
  makeCCMImages env o.targetPath

/-- Constant gitClonePath from build.go. -/
def gitClonePathStr : String := "_git"

/-- The clone destination used by makeCCMImagesByTag. -/
def ccmClonePath : String := gitClonePathStr ++ "/cloud-provider-azure"

/-- Embedding of makeCCMImagesByTag (build.go): clone, get the worktree,
call Checkout on refs/tags/TargetTag discarding its result (the source does
not inspect the returned error), then build from the clone path. -/
def makeCCMImagesByTag (env : BuildEnv) (o : BuildOptions) (url : String) :
    Except String String × List BuildEvent :=
  match env.cloneResult with
  | .error _ => (.error ("failed to clone from URL " ++ url), [.gitClone url ccmClonePath])
  | .ok _ =>
    match env.worktreeResult with
    | .error e =>
        (.error ("failed to get worktree: " ++ e), [.gitClone url ccmClonePath])
    | .ok _ =>
      let mk := makeCCMImages env ccmClonePath
      (mk.1,
       .gitClone url ccmClonePath ::
         .checkout ("refs/tags/" ++ o.targetTag) env.checkoutOk :: mk.2)

/-- Embedding of Build (build.go): verify flags, then only for the
cloud-provider-azure component build images by path or by tag; for the other
allow-listed components do nothing and return success. -/
def buildRun (env : BuildEnv) (o : BuildOptions) :
    Except String Unit × List BuildEvent :=
  match verifyBuildFlags o with
  | .error e => (.error ("failed to verify build flags: " ++ e), [])
  | .ok _ =>
    if o.target = "cloud-provider-azure" then
      if o.targetPath ≠ "" then
        let mk := makeCCMImagesByPath env o
        match mk.1 with
        | .error e => (.error ("failed to make CCM images with path: " ++ e), mk.2)
        | .ok _ => (.ok (), mk.2)
      else
        let mk := makeCCMImagesByTag env o ((lookupComponent o.target).getD "")
        match mk.1 with
        | .error e => (.error ("failed to make CCM images with tag: " ++ e), mk.2)
        | .ok _ => (.ok (), mk.2)
    else (.ok (), [])

/-- Classification of a credential attempt the poller retries: an error
whose text contains "404 Not Found". -/
def isNotFoundAttempt (a : CredAttempt) : Prop :=
  ∃ m, a = CredAttempt.err m ∧ containsSeq msg404 m = true

/-- Concrete configuration used by witnesses. -/
def wCfg : AKSConfig :=
  ⟨strBytes "sub", strBytes "rg", strBytes "cl", strBytes "loc",
   strBytes "cid", strBytes "sec", strBytes "reg"⟩

/-- Concrete createAKS environment in which every call succeeds. -/
def wAKSEnvOk : CreateAKSEnv := ⟨.ok [], .ok [], fun _ => .ok 200⟩

/-- Concrete createAKS environment whose HTTP response is status 404. -/
def wAKSEnv404 : CreateAKSEnv := ⟨.ok [], .ok [], fun _ => .ok 404⟩

/-- Concrete kubeconfig environment in which every call succeeds at once. -/
def wKubeEnvOk : KubeconfigEnv := ⟨true, fun _ => .ok [[107]], true, true⟩

/-- Concrete Up environment whose GetToken call fails. -/
def wUpEnvTokenFail : UpEnv :=
  ⟨true, .ok (strBytes "rgid"), .error (strBytes "bad"), .ok (strBytes "tag"),
   wAKSEnvOk, wKubeEnvOk⟩

/-- Concrete Up environment in which everything succeeds. -/
def wUpEnvOk : UpEnv :=
  ⟨true, .ok (strBytes "rgid"), .ok (strBytes "tok"), .ok (strBytes "tag"),
   wAKSEnvOk, wKubeEnvOk⟩

/-- Concrete Up environment whose cluster creation returns status 404. -/
def wUpEnv404 : UpEnv :=
  ⟨true, .ok (strBytes "rgid"), .ok (strBytes "tok"), .ok (strBytes "tag"),
   wAKSEnv404, wKubeEnvOk⟩

/-- Concrete attempt stream: one transient "404 Not Found" error, then
success. -/
def wAttemptsRetry : Nat → CredAttempt := fun n =>
  if n = 0 then .err (strBytes "status 404 Not Found") else .ok [[107]]

/-- Concrete build environment in which every call succeeds. -/
def wBuildEnvOk : BuildEnv :=
  ⟨.ok (), fun _ => .ok (), .ok "abc1234", .ok (), .ok (), true⟩

/-- Concrete build environment in which the tag checkout fails and
everything else succeeds. -/
def wBuildEnvCheckoutFail : BuildEnv :=
  ⟨.ok (), fun _ => .ok (), .ok "defhead7", .ok (), .ok (), false⟩

/-- Concrete build options with both TargetPath and TargetTag set. -/
def wBuildOptsBoth : BuildOptions := ⟨"cloud-provider-azure", "/repo", "v1.24.4"⟩

/-- Concrete build options for a by-path cloud-provider-azure build. -/
def wBuildOptsPath : BuildOptions := ⟨"cloud-provider-azure", "/repo", ""⟩

/-- Concrete build options for a by-tag cloud-provider-azure build. -/
def wBuildOptsTag : BuildOptions := ⟨"cloud-provider-azure", "", "v1.24.4"⟩

/-- Concrete build options for the azure-file component. -/
def wBuildOptsFile : BuildOptions := ⟨"azure-file", "", "v1.0.0"⟩

/-- The clone URL of the cloud-provider-azure component. -/
def ccmURL : String := "https://github.com/kubernetes-sigs/cloud-provider-azure.git"

theorem isPrefixOf_iff_ex (a : List Nat) : ∀ b : List Nat,
    a.isPrefixOf b = true ↔ ∃ t, a ++ t = b := by
  induction a with
  | nil => intro b; simp [List.isPrefixOf]
  | cons x xs ih =>
    intro b
    cases b with
    | nil => simp [List.isPrefixOf]
    | cons y ys =>
      simp [List.isPrefixOf, Bool.and_eq_true, beq_iff_eq, ih, List.cons_append,
        List.cons.injEq, exists_and_left]

theorem splitOnSeq_nil (pat : List Nat) : splitOnSeq pat [] = [[]] := by
  rw [splitOnSeq]

theorem splitOnSeq_cons_pos (pat : List Nat) (c : Nat) (rest : List Nat)
    (h : pat.isPrefixOf (c :: rest) = true) :
    splitOnSeq pat (c :: rest) = [] :: splitOnSeq pat (rest.drop (pat.length - 1)) := by
  rw [splitOnSeq]
  simp [h]

theorem splitOnSeq_cons_neg (pat : List Nat) (c : Nat) (rest : List Nat)
    (h : ¬ pat.isPrefixOf (c :: rest) = true) (p : List Nat) (ps : List (List Nat))
    (hps : splitOnSeq pat rest = p :: ps) :
    splitOnSeq pat (c :: rest) = (c :: p) :: ps := by
  rw [splitOnSeq]
  simp [h, hps]

theorem scanReplace_nil (pat rep : List Nat) : scanReplace pat rep [] = [] := by
  rw [scanReplace]

theorem scanReplace_cons_pos (pat rep : List Nat) (c : Nat) (rest : List Nat)
    (h : pat.isPrefixOf (c :: rest) = true) :
    scanReplace pat rep (c :: rest) =
      rep ++ scanReplace pat rep (rest.drop (pat.length - 1)) := by
  rw [scanReplace]
  simp [h]

theorem scanReplace_cons_neg (pat rep : List Nat) (c : Nat) (rest : List Nat)
    (h : ¬ pat.isPrefixOf (c :: rest) = true) :
    scanReplace pat rep (c :: rest) = c :: scanReplace pat rep rest := by
  rw [scanReplace]
  simp [h]

theorem splitOnSeq_ne_nil (pat s : List Nat) : splitOnSeq pat s ≠ [] := by
  rw [splitOnSeq.eq_def]
  split
  · simp
  · split
    · simp
    · split <;> simp

theorem splitOnSeq_exists_cons (pat s : List Nat) :
    ∃ p ps, splitOnSeq pat s = p :: ps := by
  rcases hsp : splitOnSeq pat s with _ | ⟨p, ps⟩
  · exact absurd hsp (splitOnSeq_ne_nil pat s)
  · exact ⟨p, ps, rfl⟩

theorem interseq_splitOnSeq (pat : List Nat) (hpat : pat ≠ []) :
    ∀ s, interseq pat (splitOnSeq pat s) = s := by
  have main : ∀ n, ∀ s : List Nat, s.length ≤ n →
      interseq pat (splitOnSeq pat s) = s := by
    intro n
    induction n with
    | zero =>
      intro s hs
      have hnil : s = [] := List.length_eq_zero.mp (Nat.le_zero.mp hs)
      subst hnil
      simp [splitOnSeq_nil, interseq]
    | succ n ih =>
      intro s hs
      rcases s with _ | ⟨c, rest⟩
      · simp [splitOnSeq_nil, interseq]
      · by_cases h : pat.isPrefixOf (c :: rest) = true
        · obtain ⟨t, ht⟩ := (isPrefixOf_iff_ex pat (c :: rest)).mp h
          rcases pat with _ | ⟨p0, pt⟩
          · exact absurd rfl hpat
          · rw [List.cons_append] at ht
            injection ht with hc hrest
            have hdrop : rest.drop ((p0 :: pt).length - 1) = t := by
              rw [← hrest]
              simp [List.drop_left]
            rw [splitOnSeq_cons_pos _ _ _ h, hdrop]
            obtain ⟨q, qs, hqs⟩ := splitOnSeq_exists_cons (p0 :: pt) t
            have hlen : t.length ≤ n := by
              have h1 : rest.length ≤ n := by simpa using hs
              have h2 : t.length ≤ rest.length := by
                rw [← hrest]; simp
              omega
            have hrec := ih t hlen
            rw [hqs] at hrec ⊢
            simp only [interseq] at hrec ⊢
            rw [hrec]
            rw [← hc, ← hrest]
            simp
        · obtain ⟨p, ps, hps⟩ := splitOnSeq_exists_cons pat rest
          rw [splitOnSeq_cons_neg pat c rest h p ps hps]
          have hrec := ih rest (by simpa using hs)
          rw [hps] at hrec
          rcases ps with _ | ⟨q, qs⟩
          · simp only [interseq] at hrec ⊢
            rw [hrec]
          · simp only [interseq] at hrec ⊢
            rw [← hrec]
            simp
  intro s
  exact main s.length s le_rfl

theorem scanReplace_eq_interseq (pat : List Nat) (hpat : pat ≠ []) (rep : List Nat) :
    ∀ s, scanReplace pat rep s = interseq rep (splitOnSeq pat s) := by
  have main : ∀ n, ∀ s : List Nat, s.length ≤ n →
      scanReplace pat rep s = interseq rep (splitOnSeq pat s) := by
    intro n
    induction n with
    | zero =>
      intro s hs
      have hnil : s = [] := List.length_eq_zero.mp (Nat.le_zero.mp hs)
      subst hnil
      simp [splitOnSeq_nil, scanReplace_nil, interseq]
    | succ n ih =>
      intro s hs
      rcases s with _ | ⟨c, rest⟩
      · simp [splitOnSeq_nil, scanReplace_nil, interseq]
      · by_cases h : pat.isPrefixOf (c :: rest) = true
        · rw [scanReplace_cons_pos _ _ _ _ h, splitOnSeq_cons_pos _ _ _ h]
          obtain ⟨q, qs, hqs⟩ := splitOnSeq_exists_cons pat (rest.drop (pat.length - 1))
          have hlen : (rest.drop (pat.length - 1)).length ≤ n := by
            have h1 : rest.length ≤ n := by simpa using hs
            simp [List.length_drop]
            omega
          have hrec := ih _ hlen
          rw [hqs] at hrec ⊢
          simp only [interseq]
          rw [hrec]
          simp
        · obtain ⟨p, ps, hps⟩ := splitOnSeq_exists_cons pat rest
          rw [scanReplace_cons_neg _ _ _ _ h, splitOnSeq_cons_neg pat c rest h p ps hps]
          have hrec := ih rest (by simpa using hs)
          rw [hps] at hrec
          rcases ps with _ | ⟨q, qs⟩
          · simp only [interseq] at hrec ⊢
            rw [hrec]
          · simp only [interseq] at hrec ⊢
            rw [hrec]
            simp
  intro s
  exact main s.length s le_rfl

theorem splitOnSeq_free (pat : List Nat) (hpat : pat ≠ []) :
    ∀ s, ∀ p ∈ splitOnSeq pat s, ¬ occursSeq pat p := by
  have hplen : 0 < pat.length := List.length_pos.mpr hpat
  have main : ∀ n, ∀ s : List Nat, s.length ≤ n →
      ∀ p ∈ splitOnSeq pat s, ¬ occursSeq pat p := by
    intro n
    induction n with
    | zero =>
      intro s hs p hp hocc
      have hnil : s = [] := List.length_eq_zero.mp (Nat.le_zero.mp hs)
      subst hnil
      rw [splitOnSeq_nil] at hp
      simp at hp
      subst hp
      obtain ⟨l, r, hl⟩ := hocc
      have hlen := congrArg List.length hl
      simp at hlen
      omega
    | succ n ih =>
      intro s hs
      rcases s with _ | ⟨c, rest⟩
      · intro p hp hocc
        rw [splitOnSeq_nil] at hp
        simp at hp
        subst hp
        obtain ⟨l, r, hl⟩ := hocc
        have hlen := congrArg List.length hl
        simp at hlen
        omega
      · by_cases h : pat.isPrefixOf (c :: rest) = true
        · rw [splitOnSeq_cons_pos _ _ _ h]
          intro p hp
          rcases List.mem_cons.mp hp with hp0 | hpmem
          · subst hp0
            rintro ⟨l, r, hl⟩
            have hlen := congrArg List.length hl
            simp at hlen
            omega
          · have hlen : (rest.drop (pat.length - 1)).length ≤ n := by
              have h1 : rest.length ≤ n := by simpa using hs
              simp [List.length_drop]
              omega
            exact ih _ hlen p hpmem
        · obtain ⟨p0, ps, hps⟩ := splitOnSeq_exists_cons pat rest
          rw [splitOnSeq_cons_neg pat c rest h p0 ps hps]
          have hrestlen : rest.length ≤ n := by simpa using hs
          have hrecon : interseq pat (p0 :: ps) = rest := by
            have hr := interseq_splitOnSeq pat hpat rest
            rw [hps] at hr
            exact hr
          intro p hp
          rcases List.mem_cons.mp hp with hp0 | hpmem
          · subst hp0
            rintro ⟨l, r, hl⟩
            rcases l with _ | ⟨a, l2⟩
            · -- an occurrence at the head of the piece would make pat a
              -- prefix of the original input at this position
              apply h
              rw [isPrefixOf_iff_ex]
              simp only [List.nil_append] at hl
              rcases ps with _ | ⟨q, qs⟩
              · simp only [interseq] at hrecon
                exact ⟨r, by rw [← hrecon, hl]⟩
              · simp only [interseq] at hrecon
                refine ⟨r ++ pat ++ interseq pat (q :: qs), ?_⟩
                have hx : (c :: p0) ++ (pat ++ interseq pat (q :: qs)) =
                    (pat ++ r) ++ (pat ++ interseq pat (q :: qs)) := by rw [hl]
                simp only [List.cons_append] at hx
                rw [← hrecon]
                simp only [List.append_assoc] at hx ⊢
                exact hx.symm
            · simp only [List.cons_append] at hl
              injection hl with h1 h2
              exact ih rest hrestlen p0 (by rw [hps]; exact List.mem_cons_self _ _) ⟨l2, r, h2⟩
          · exact ih rest hrestlen p (by rw [hps]; exact List.mem_cons.mpr (Or.inr hpmem))
  intro s
  exact main s.length s le_rfl

theorem containsSeq_iff (pat : List Nat) : ∀ s, containsSeq pat s = true ↔ occursSeq pat s := by
  intro s
  induction s with
  | nil =>
    simp only [containsSeq, List.isEmpty_iff, occursSeq]
    constructor
    · rintro rfl
      exact ⟨[], [], rfl⟩
    · rintro ⟨l, r, hl⟩
      have hlen := congrArg List.length hl
      simp at hlen
      have hp : pat.length = 0 := by omega
      exact List.length_eq_zero.mp hp
  | cons c rest ih =>
    simp only [containsSeq, Bool.or_eq_true, ih, isPrefixOf_iff_ex, occursSeq]
    constructor
    · rintro (⟨t, ht⟩ | ⟨l, r, hr⟩)
      · exact ⟨[], t, by simp [← ht]⟩
      · exact ⟨c :: l, r, by simp [hr]⟩
    · rintro ⟨l, r, hl⟩
      rcases l with _ | ⟨a, l2⟩
      · exact Or.inl ⟨r, by simpa using hl.symm⟩
      · right
        simp only [List.cons_append] at hl
        injection hl with h1 h2
        exact ⟨l2, r, h2⟩

theorem strReplaceAll_of_not_occurs (pat rep s : List Nat) (h : ¬ occursSeq pat s) :
    strReplaceAll s pat rep = s := by
  have hpat : pat ≠ [] := by
    rintro rfl
    exact h ⟨[], s, rfl⟩
  rw [strReplaceAll, if_neg hpat]
  obtain ⟨p, ps, hps⟩ := splitOnSeq_exists_cons pat s
  have h1 := interseq_splitOnSeq pat hpat s
  have h2 := scanReplace_eq_interseq pat hpat rep s
  rw [hps] at h1 h2
  rcases ps with _ | ⟨q, qs⟩
  · simp only [interseq] at h1 h2
    rw [h2, h1]
  · simp only [interseq] at h1
    exact absurd ⟨p, interseq pat (q :: qs), h1.symm⟩ h

theorem pfx_extend (a x z : List Nat) (h : ∃ t, a ++ t = x) : ∃ t, a ++ t = x ++ z := by
  obtain ⟨t, ht⟩ := h
  exact ⟨t ++ z, by rw [← List.append_assoc, ht]⟩

theorem pfx_of_append_le (a x z : List Nat) (h : ∃ t, a ++ t = x ++ z)
    (hle : a.length ≤ x.length) : ∃ t, a ++ t = x := by
  obtain ⟨t, ht⟩ := h
  have h1 : a = (x ++ z).take a.length := by
    rw [← ht, List.take_left]
  have h2 : a = x.take a.length := by
    conv_lhs => rw [h1]
    rw [List.take_append_of_le_length hle]
  refine ⟨x.drop a.length, ?_⟩
  calc a ++ x.drop a.length = x.take a.length ++ x.drop a.length := by rw [← h2]
    _ = x := List.take_append_drop _ _

theorem append_pfx_split (a x z : List Nat) (h : ∃ t, a ++ t = x ++ z)
    (hge : x.length ≤ a.length) : ∃ w, x ++ w = a ∧ ∃ v, w ++ v = z := by
  obtain ⟨t, ht⟩ := h
  have h1 : x = (x ++ z).take x.length := by rw [List.take_left]
  have h2 : x = a.take x.length := by
    conv_lhs => rw [h1, ← ht]
    rw [List.take_append_of_le_length hge]
  have h3 : x ++ a.drop x.length = a := by
    calc x ++ a.drop x.length = a.take x.length ++ a.drop x.length := by rw [← h2]
      _ = a := List.take_append_drop _ _
  refine ⟨a.drop x.length, h3, t, ?_⟩
  have h4 : x ++ (a.drop x.length ++ t) = x ++ z := by
    rw [← List.append_assoc, h3, ht]
  exact List.append_cancel_left h4

theorem scanReplace_through (pat rep p r : List Nat)
    (hA : ¬ occursSeq pat p)
    (hD : ∀ t : List Nat, t ≠ [] → (∃ u, u ++ t = p) → ¬ ∃ w, t ++ w = pat) :
    ∀ y, (∃ u, u ++ y = p) → scanReplace pat rep (y ++ r) = y ++ scanReplace pat rep r := by
  intro y
  induction y with
  | nil => simp
  | cons c y2 ih =>
    intro hy
    have hnotpre : ¬ pat.isPrefixOf (c :: (y2 ++ r)) = true := by
      rw [isPrefixOf_iff_ex]
      rintro hpre
      have hpre2 : ∃ t, pat ++ t = (c :: y2) ++ r := by
        obtain ⟨t, ht⟩ := hpre
        exact ⟨t, by rw [ht]; simp⟩
      by_cases hlen : pat.length ≤ (c :: y2).length
      · obtain ⟨t, ht⟩ := pfx_of_append_le pat (c :: y2) r hpre2 hlen
        obtain ⟨u, hu⟩ := hy
        refine hA ⟨u, t, ?_⟩
        rw [← hu, ← ht]
        simp
      · have hge : (c :: y2).length ≤ pat.length := by omega
        obtain ⟨w, hw, -⟩ := append_pfx_split pat (c :: y2) r hpre2 hge
        exact hD (c :: y2) (by simp) hy ⟨w, hw⟩
    have hsub : ∃ u, u ++ y2 = p := by
      obtain ⟨u, hu⟩ := hy
      exact ⟨u ++ [c], by rw [← hu]; simp⟩
    calc scanReplace pat rep ((c :: y2) ++ r)
        = scanReplace pat rep (c :: (y2 ++ r)) := by simp
      _ = c :: scanReplace pat rep (y2 ++ r) := scanReplace_cons_neg _ _ _ _ hnotpre
      _ = c :: (y2 ++ scanReplace pat rep r) := by rw [ih hsub]
      _ = (c :: y2) ++ scanReplace pat rep r := by simp

theorem scanReplace_splice (pat rep p : List Nat) (hpat : pat ≠ [])
    (hno : noOverlapCond pat p) :
    ∀ l r, scanReplace pat rep (l ++ p ++ r) =
      scanReplace pat rep l ++ p ++ scanReplace pat rep r := by
  obtain ⟨hA, hB, hC, hD⟩ := hno
  have main : ∀ n, ∀ l : List Nat, l.length ≤ n → ∀ r,
      scanReplace pat rep (l ++ p ++ r) =
        scanReplace pat rep l ++ p ++ scanReplace pat rep r := by
    intro n
    induction n with
    | zero =>
      intro l hl r
      have hnil : l = [] := List.length_eq_zero.mp (Nat.le_zero.mp hl)
      subst hnil
      simp only [List.nil_append, scanReplace_nil]
      exact scanReplace_through pat rep p r hA hD p ⟨[], rfl⟩
    | succ n ih =>
      intro l hl r
      rcases l with _ | ⟨c, l2⟩
      · simp only [List.nil_append, scanReplace_nil]
        exact scanReplace_through pat rep p r hA hD p ⟨[], rfl⟩
      · by_cases hT2 : pat.isPrefixOf (c :: l2) = true
        · obtain ⟨t, ht⟩ := (isPrefixOf_iff_ex pat (c :: l2)).mp hT2
          have hT1 : pat.isPrefixOf (c :: (l2 ++ p ++ r)) = true := by
            rw [isPrefixOf_iff_ex]
            refine ⟨t ++ p ++ r, ?_⟩
            have : pat ++ (t ++ p ++ r) = (pat ++ t) ++ p ++ r := by simp
            rw [this, ht]
            simp
          rcases pat with _ | ⟨p0, pt⟩
          · exact absurd rfl hpat
          · simp only [List.cons_append] at ht
            injection ht with hc hl2eq
            have hgoal1 : scanReplace (p0 :: pt) rep ((c :: l2) ++ p ++ r) =
                rep ++ scanReplace (p0 :: pt) rep ((l2 ++ p ++ r).drop ((p0 :: pt).length - 1)) := by
              have : (c :: l2) ++ p ++ r = c :: (l2 ++ p ++ r) := by simp
              rw [this, scanReplace_cons_pos _ _ _ _ hT1]
            have hdrop1 : (l2 ++ p ++ r).drop ((p0 :: pt).length - 1) = t ++ p ++ r := by
              rw [← hl2eq]
              have : (pt ++ t) ++ p ++ r = pt ++ (t ++ p ++ r) := by simp
              rw [this]
              simp [List.drop_left]
            have hdrop2 : l2.drop ((p0 :: pt).length - 1) = t := by
              rw [← hl2eq]
              simp [List.drop_left]
            have hlen2 : t.length ≤ n := by
              have h1 := congrArg List.length hl2eq
              simp at h1 hl
              omega
            rw [hgoal1, hdrop1, scanReplace_cons_pos _ _ _ _ hT2, hdrop2, ih t hlen2 r]
            simp
        · have hT1 : ¬ pat.isPrefixOf (c :: (l2 ++ p ++ r)) = true := by
            rw [isPrefixOf_iff_ex]
            rintro ⟨t, ht⟩
            have hpre2 : ∃ t, pat ++ t = (c :: l2) ++ (p ++ r) := by
              refine ⟨t, ?_⟩
              rw [ht]
              simp
            by_cases hlen : pat.length ≤ (c :: l2).length
            · exact hT2 ((isPrefixOf_iff_ex pat (c :: l2)).mpr
                (pfx_of_append_le pat (c :: l2) (p ++ r) hpre2 hlen))
            · have hge : (c :: l2).length ≤ pat.length := by omega
              obtain ⟨w, hw, v, hv⟩ := append_pfx_split pat (c :: l2) (p ++ r) hpre2 hge
              have hwne : w ≠ [] := by
                intro hwnil
                subst hwnil
                have hlw := congrArg List.length hw
                simp only [List.append_nil] at hlw
                omega
              by_cases hl2b : w.length ≤ p.length
              · obtain ⟨t2, ht2⟩ := pfx_of_append_le w p r ⟨v, hv⟩ hl2b
                exact hC w hwne ⟨c :: l2, hw⟩ ⟨t2, ht2⟩
              · have hge2 : p.length ≤ w.length := by omega
                obtain ⟨w2, hw2, -⟩ := append_pfx_split w p r ⟨v, hv⟩ hge2
                refine hB ⟨c :: l2, w2, ?_⟩
                rw [← hw, ← hw2]
                simp
          have hstep : scanReplace pat rep ((c :: l2) ++ p ++ r) =
              c :: scanReplace pat rep (l2 ++ p ++ r) := by
            have : (c :: l2) ++ p ++ r = c :: (l2 ++ p ++ r) := by simp
            rw [this, scanReplace_cons_neg _ _ _ _ hT1]
          have hlen2 : l2.length ≤ n := by
            simp only [List.length_cons] at hl
            omega
          rw [hstep, ih l2 hlen2 r, scanReplace_cons_neg _ _ _ _ hT2]
          simp
  intro l r
  exact main l.length l le_rfl r

theorem strReplaceAll_splice (pat rep p : List Nat) (hpat : pat ≠ [])
    (hno : noOverlapCond pat p) (l r : List Nat) :
    strReplaceAll (l ++ p ++ r) pat rep =
      strReplaceAll l pat rep ++ p ++ strReplaceAll r pat rep := by
  rw [strReplaceAll, strReplaceAll, strReplaceAll, if_neg hpat, if_neg hpat, if_neg hpat]
  exact scanReplace_splice pat rep p hpat hno l r

theorem occursSeq_strReplaceAll (pat rep p s : List Nat) (hpat : pat ≠ [])
    (hno : noOverlapCond pat p) (h : occursSeq p s) :
    occursSeq p (strReplaceAll s pat rep) := by
  obtain ⟨l, r, rfl⟩ := h
  exact ⟨strReplaceAll l pat rep, strReplaceAll r pat rep,
    strReplaceAll_splice pat rep p hpat hno l r⟩

theorem occursSeq_renderTemplate (p : List Nat) :
    ∀ subst : List (List Nat × List Nat),
      (∀ kv ∈ subst, kv.1 ≠ [] ∧ noOverlapCond kv.1 p) →
      ∀ tmpl, occursSeq p tmpl → occursSeq p (renderTemplate tmpl subst) := by
  intro subst
  induction subst with
  | nil =>
    intro _ tmpl h
    simpa [renderTemplate] using h
  | cons kv rest ih =>
    intro hcond tmpl h
    have hkv := hcond kv (List.mem_cons_self _ _)
    have hstep := occursSeq_strReplaceAll kv.1 kv.2 p tmpl hkv.1 hkv.2 h
    have hfold : renderTemplate tmpl (kv :: rest) =
        renderTemplate (strReplaceAll tmpl kv.1 kv.2) rest := by
      simp [renderTemplate]
    rw [hfold]
    exact ih (fun kv2 hm => hcond kv2 (List.mem_cons_of_mem _ hm)) _ hstep

theorem noOverlapb_sound (pat p : List Nat) (h : noOverlapb pat p = true) :
    noOverlapCond pat p := by
  rw [noOverlapb] at h
  simp only [Bool.and_eq_true, Bool.not_eq_true', List.all_eq_true, Bool.or_eq_true,
    List.isEmpty_iff, Bool.not_eq_true] at h
  obtain ⟨⟨⟨h1, h2⟩, h3⟩, h4⟩ := h
  refine ⟨?_, ?_, ?_, ?_⟩
  · intro hocc
    rw [← containsSeq_iff] at hocc
    rw [hocc] at h1
    exact Bool.false_ne_true h1.symm
  · intro hocc
    rw [← containsSeq_iff] at hocc
    rw [hocc] at h2
    exact Bool.false_ne_true h2.symm
  · rintro t ht ⟨u, hu⟩ ⟨w, hw⟩
    have hmem : t ∈ pat.tails := by
      rw [List.mem_tails]
      exact ⟨u, hu⟩
    rcases h3 t hmem with hcase | hcase
    · exact ht hcase
    · rw [(isPrefixOf_iff_ex t p).mpr ⟨w, hw⟩] at hcase
      simp at hcase
  · rintro t ht ⟨u, hu⟩ ⟨w, hw⟩
    have hmem : t ∈ p.tails := by
      rw [List.mem_tails]
      exact ⟨u, hu⟩
    rcases h4 t hmem with hcase | hcase
    · exact ht hcase
    · rw [(isPrefixOf_iff_ex t pat).mpr ⟨w, hw⟩] at hcase
      simp at hcase

theorem b64char_ne_underscore (n : Nat) : b64char n ≠ 95 := by
  rw [b64char]
  rcases hget : b64alphabet.get? n with _ | a
  · have hd : b64alphabet.getD n 0 = 0 := by
      simp only [List.getD]
      rw [hget]
      rfl
    rw [hd]
    omega
  · have hmem : a ∈ b64alphabet := List.get?_mem hget
    have hne : ∀ x ∈ b64alphabet, x ≠ 95 := by decide
    have hd : b64alphabet.getD n 0 = a := by
      simp only [List.getD]
      rw [hget]
      rfl
    rw [hd]
    exact hne a hmem

theorem b64encode_no_underscore : ∀ s : List Nat, ∀ x ∈ b64encode s, x ≠ 95 := by
  have main : ∀ n, ∀ s : List Nat, s.length ≤ n → ∀ x ∈ b64encode s, x ≠ 95 := by
    intro n
    induction n with
    | zero =>
      intro s hs
      have hnil : s = [] := List.length_eq_zero.mp (Nat.le_zero.mp hs)
      subst hnil
      simp [b64encode]
    | succ n ih =>
      intro s hs x hx
      rcases s with _ | ⟨a, _ | ⟨b, _ | ⟨c, rest⟩⟩⟩
      · simp [b64encode] at hx
      · simp [b64encode] at hx
        rcases hx with rfl | rfl | rfl
        · exact b64char_ne_underscore _
        · exact b64char_ne_underscore _
        · omega
      · simp [b64encode] at hx
        rcases hx with rfl | rfl | rfl | rfl
        · exact b64char_ne_underscore _
        · exact b64char_ne_underscore _
        · exact b64char_ne_underscore _
        · omega
      · simp only [b64encode, List.mem_cons] at hx
        rcases hx with rfl | rfl | rfl | rfl | hmem
        · exact b64char_ne_underscore _
        · exact b64char_ne_underscore _
        · exact b64char_ne_underscore _
        · exact b64char_ne_underscore _
        · have hlen : rest.length ≤ n := by
            simp only [List.length_cons] at hs
            omega
          exact ih rest hlen x hmem
  intro s
  exact main s.length s le_rfl

theorem not_occursSeq_placeholder_b64 (s : List Nat) :
    ¬ occursSeq customConfigPlaceholder (b64encode s) := by
  rintro ⟨l, r, h⟩
  have h95p : (95 : Nat) ∈ customConfigPlaceholder := by decide
  have h95 : (95 : Nat) ∈ b64encode s := by
    rw [h]
    simp [h95p]
  exact b64encode_no_underscore s 95 h95 rfl

theorem range_map_shift {α : Type} (g : Nat → α) :
    ∀ k i, (List.range (k + 1)).map (fun j => g (i + j)) =
      g i :: (List.range k).map (fun j => g (i + 1 + j)) := by
  intro k
  induction k with
  | zero =>
    intro i
    rw [List.range_succ]
    simp
  | succ k ih =>
    intro i
    have e1 : i + (k + 1) = i + 1 + k := by omega
    rw [List.range_succ, List.map_append, ih i, List.range_succ, List.map_append]
    simp [e1]

theorem pollCreds_success (attempts : Nat → CredAttempt) :
    ∀ k i fuel, (∀ j, j < k → isNotFoundAttempt (attempts (i + j))) → k < fuel →
    ∀ ks, attempts (i + k) = .ok ks →
    pollCreds attempts i fuel =
      (.ok (i + k) ks, (List.range (k + 1)).map (fun j => UpEvent.pollAttempt (i + j))) := by
  intro k
  induction k with
  | zero =>
    intro i fuel hnf hk ks hok
    rcases fuel with _ | f
    · omega
    · simp only [Nat.add_zero] at hok
      simp [pollCreds, hok, List.range_succ]
  | succ k ih =>
    intro i fuel hnf hk ks hok
    rcases fuel with _ | f
    · omega
    · obtain ⟨m, hm, hc⟩ := hnf 0 (by omega)
      simp only [Nat.add_zero] at hm
      have hrec := ih (i + 1) f
        (fun j hj => by
          have := hnf (j + 1) (by omega)
          simpa [Nat.add_assoc, Nat.add_comm 1 j] using this)
        (by omega) ks
        (by
          have : i + 1 + k = i + (k + 1) := by omega
          rw [this]
          exact hok)
      simp only [pollCreds, hm, hc, if_true]
      rw [hrec]
      have h1 : i + 1 + k = i + (k + 1) := by omega
      have h3 := range_map_shift UpEvent.pollAttempt (k + 1) i
      rw [h1, h3]

theorem pollCreds_timeout (attempts : Nat → CredAttempt) :
    ∀ fuel i, (∀ j, j < fuel → isNotFoundAttempt (attempts (i + j))) →
    pollCreds attempts i fuel =
      (.timedOut, (List.range fuel).map (fun j => UpEvent.pollAttempt (i + j))) := by
  intro fuel
  induction fuel with
  | zero =>
    intro i _
    simp [pollCreds]
  | succ f ih =>
    intro i hnf
    obtain ⟨m, hm, hc⟩ := hnf 0 (by omega)
    simp only [Nat.add_zero] at hm
    have hrec := ih (i + 1) (fun j hj => by
      have := hnf (j + 1) (by omega)
      simpa [Nat.add_assoc, Nat.add_comm 1 j] using this)
    simp only [pollCreds, hm, hc, if_true]
    rw [hrec]
    have h3 := range_map_shift UpEvent.pollAttempt f i
    rw [h3]

theorem pollCreds_fatal (attempts : Nat → CredAttempt) :
    ∀ k i fuel, (∀ j, j < k → isNotFoundAttempt (attempts (i + j))) → k < fuel →
    ∀ m, attempts (i + k) = .err m → containsSeq msg404 m = false →
    pollCreds attempts i fuel =
      (.fatal (i + k) m, (List.range (k + 1)).map (fun j => UpEvent.pollAttempt (i + j))) := by
  intro k
  induction k with
  | zero =>
    intro i fuel hnf hk m herr hnc
    rcases fuel with _ | f
    · omega
    · simp only [Nat.add_zero] at herr
      simp [pollCreds, herr, hnc, List.range_succ]
  | succ k ih =>
    intro i fuel hnf hk m herr hnc
    rcases fuel with _ | f
    · omega
    · obtain ⟨m0, hm0, hc0⟩ := hnf 0 (by omega)
      simp only [Nat.add_zero] at hm0
      have hrec := ih (i + 1) f
        (fun j hj => by
          have := hnf (j + 1) (by omega)
          simpa [Nat.add_assoc, Nat.add_comm 1 j] using this)
        (by omega) m
        (by
          have he : i + 1 + k = i + (k + 1) := by omega
          rw [he]
          exact herr) hnc
      simp only [pollCreds, hm0, hc0, if_true]
      rw [hrec]
      have h1 : i + 1 + k = i + (k + 1) := by omega
      have h3 := range_map_shift UpEvent.pollAttempt (k + 1) i
      rw [h1, h3]

theorem pollCreds_events_shape (attempts : Nat → CredAttempt) :
    ∀ fuel i, ∀ ev ∈ (pollCreds attempts i fuel).2, ∃ j, ev = UpEvent.pollAttempt j := by
  intro fuel
  induction fuel with
  | zero =>
    intro i ev hev
    simp [pollCreds] at hev
  | succ f ih =>
    intro i ev hev
    rcases ha : attempts i with ks | m
    · simp [pollCreds, ha] at hev
      exact ⟨i, hev⟩
    · by_cases hc : containsSeq msg404 m = true
      · simp only [pollCreds, ha, hc, if_true] at hev
        rcases List.mem_cons.mp hev with rfl | hmem
        · exact ⟨i, rfl⟩
        · exact ih (i + 1) ev hmem
      · simp [pollCreds, ha, hc] at hev
        exact ⟨i, hev⟩

theorem getAKSKubeconfig_events_shape (cfg : AKSConfig) (env : KubeconfigEnv) :
    ∀ ev ∈ (getAKSKubeconfig cfg env).2,
      ev = UpEvent.newClusterClient ∨ (∃ i, ev = UpEvent.pollAttempt i) ∨
      ev = UpEvent.mkdirKubeconfigDir ∨ ∃ pth c, ev = UpEvent.writeKubeconfig pth c := by
  intro ev hev
  simp only [getAKSKubeconfig] at hev
  by_cases hcl : env.clientOk = false
  · rw [if_pos hcl] at hev
    simp at hev
    exact Or.inl hev
  · rw [if_neg hcl] at hev
    rcases hpoll : (pollCreds env.attempts 0 pollMaxAttempts).1 with ⟨i, ks⟩ | _ | ⟨i, m⟩
    · rw [hpoll] at hev
      rcases ks with _ | ⟨k0, rest⟩
      · simp at hev
        rcases hev with rfl | hmem
        · exact Or.inl rfl
        · exact Or.inr (Or.inl (pollCreds_events_shape env.attempts _ _ ev hmem))
      · by_cases hmk : env.mkdirOk = false
        · simp [hmk] at hev
          rcases hev with rfl | hmem | rfl
          · exact Or.inl rfl
          · exact Or.inr (Or.inl (pollCreds_events_shape env.attempts _ _ ev hmem))
          · exact Or.inr (Or.inr (Or.inl rfl))
        · by_cases hw : env.writeOk = false
          · simp [hmk, hw] at hev
            rcases hev with rfl | hmem | rfl | rfl
            · exact Or.inl rfl
            · exact Or.inr (Or.inl (pollCreds_events_shape env.attempts _ _ ev hmem))
            · exact Or.inr (Or.inr (Or.inl rfl))
            · exact Or.inr (Or.inr (Or.inr ⟨_, _, rfl⟩))
          · simp [hmk, hw] at hev
            rcases hev with rfl | hmem | rfl | rfl
            · exact Or.inl rfl
            · exact Or.inr (Or.inl (pollCreds_events_shape env.attempts _ _ ev hmem))
            · exact Or.inr (Or.inr (Or.inl rfl))
            · exact Or.inr (Or.inr (Or.inr ⟨_, _, rfl⟩))
    · rw [hpoll] at hev
      simp at hev
      rcases hev with rfl | hmem
      · exact Or.inl rfl
      · exact Or.inr (Or.inl (pollCreds_events_shape env.attempts _ _ ev hmem))
    · rw [hpoll] at hev
      simp at hev
      rcases hev with rfl | hmem
      · exact Or.inl rfl
      · exact Or.inr (Or.inl (pollCreds_events_shape env.attempts _ _ ev hmem))

/-- C7: for every BuildRequest in which TargetPath and TargetTag are both
set or both empty, or whose Target component is not a key of the fixed
allow-list, Build fails during flag validation and performs no subprocess,
clone, build or push action (the action trace is empty). -/
theorem build_validation_spec (env : BuildEnv) (o : BuildOptions)
    (h : (o.targetPath ≠ "" ∧ o.targetTag ≠ "") ∨ (o.targetPath = "" ∧ o.targetTag = "") ∨
      lookupComponent o.target = none) :
    (∃ e, (buildRun env o).1 = Except.error e) ∧ (buildRun env o).2 = [] := by
  have hver : ∃ e, verifyBuildFlags o = Except.error e := by
    by_cases hlk : lookupComponent o.target = none
    · exact ⟨_, by rw [verifyBuildFlags, if_pos hlk]⟩
    · have hcond : (o.targetPath ≠ "" ∧ o.targetTag ≠ "") ∨
          (o.targetPath = "" ∧ o.targetTag = "") := by
        rcases h with hc | hc | hc
        · exact Or.inl hc
        · exact Or.inr hc
        · exact absurd hc hlk
      exact ⟨_, by rw [verifyBuildFlags, if_neg hlk, if_pos hcond]⟩
  obtain ⟨e, he⟩ := hver
  constructor
  · exact ⟨"failed to verify build flags: " ++ e, by simp [buildRun, he]⟩
  · simp [buildRun, he]

/-- C7 witness: with both TargetPath and TargetTag set, Build fails during
validation with an empty action trace. -/
theorem build_validation_spec_witness :
    (∃ e, (buildRun wBuildEnvOk wBuildOptsBoth).1 = Except.error e) ∧
    (buildRun wBuildEnvOk wBuildOptsBoth).2 = [] :=
  build_validation_spec wBuildEnvOk wBuildOptsBoth (Or.inl ⟨by decide, by decide⟩)

/-- C10: for every BuildRequest that passes validation but whose Target is
azure-file or azure-disk, Build returns success immediately and performs no
clone, build or push action. -/
theorem build_non_ccm_noop (env : BuildEnv) (o : BuildOptions)
    (htgt : o.target = "azure-file" ∨ o.target = "azure-disk")
    (hxor : (o.targetPath = "" ∧ o.targetTag ≠ "") ∨ (o.targetPath ≠ "" ∧ o.targetTag = "")) :
    (buildRun env o).1 = Except.ok () ∧ (buildRun env o).2 = [] := by
  have hlk : ¬ lookupComponent o.target = none := by
    rcases htgt with h | h <;> rw [h] <;> decide
  have hcond : ¬ ((o.targetPath ≠ "" ∧ o.targetTag ≠ "") ∨
      (o.targetPath = "" ∧ o.targetTag = "")) := by
    rcases hxor with ⟨h1, h2⟩ | ⟨h1, h2⟩ <;> simp [h1, h2]
  have hver : verifyBuildFlags o = Except.ok () := by
    rw [verifyBuildFlags, if_neg hlk, if_neg hcond]
  have hne : ¬ o.target = "cloud-provider-azure" := by
    rcases htgt with h | h <;> rw [h] <;> decide
  refine ⟨?_, ?_⟩ <;> simp [buildRun, hver, hne]

/-- C10 witness: a valid azure-file request returns success with no action. -/
theorem build_non_ccm_noop_witness :
    (buildRun wBuildEnvOk wBuildOptsFile).1 = Except.ok () ∧
    (buildRun wBuildEnvOk wBuildOptsFile).2 = [] :=
  build_non_ccm_noop wBuildEnvOk wBuildOptsFile (Or.inl rfl) (Or.inl ⟨rfl, by decide⟩)

/-- C8: for a BuildRequest with component cloud-provider-azure and a local
path, Build invokes git show and then the four build and push actions in
source order, then captures git rev-parse --short=7 HEAD; the Image Builder
returns exactly the captured short hash, a string of 7 characters, as the
image tag, and Build succeeds. -/
theorem build_by_path_spec (env : BuildEnv) (p h : String)
    (hp : p ≠ "")
    (hshow : env.gitShowResult = Except.ok ())
    (hmake : ∀ t, env.makeResult t = Except.ok ())
    (hrev : env.revParseResult = Except.ok h)
    (hlen : h.length = 7) :
    (makeCCMImagesByPath env ⟨"cloud-provider-azure", p, ""⟩).1 = Except.ok h ∧
    (buildRun env ⟨"cloud-provider-azure", p, ""⟩).1 = Except.ok () ∧
    (buildRun env ⟨"cloud-provider-azure", p, ""⟩).2 =
      [BuildEvent.gitShow p,
       BuildEvent.makeTarget p "build-ccm-image-amd64",
       BuildEvent.makeTarget p "push-ccm-image-amd64",
       BuildEvent.makeTarget p "build-node-image-linux-amd64",
       BuildEvent.makeTarget p "push-node-image-linux-amd64",
       BuildEvent.revParse p] ∧
    h.length = 7 := by
  have hrun : runMakeTargets env p ccmMakeTargets =
      (Except.ok (),
       [BuildEvent.makeTarget p "build-ccm-image-amd64",
        BuildEvent.makeTarget p "push-ccm-image-amd64",
        BuildEvent.makeTarget p "build-node-image-linux-amd64",
        BuildEvent.makeTarget p "push-node-image-linux-amd64"]) := by
    simp [runMakeTargets, ccmMakeTargets, hmake]
  have hmk : makeCCMImages env p =
      (Except.ok h,
       [BuildEvent.gitShow p,
        BuildEvent.makeTarget p "build-ccm-image-amd64",
        BuildEvent.makeTarget p "push-ccm-image-amd64",
        BuildEvent.makeTarget p "build-node-image-linux-amd64",
        BuildEvent.makeTarget p "push-node-image-linux-amd64",
        BuildEvent.revParse p]) := by
    simp [makeCCMImages, hshow, hrun, hrev]
  have hlk : ¬ lookupComponent "cloud-provider-azure" = none := by decide
  have hver : verifyBuildFlags ⟨"cloud-provider-azure", p, ""⟩ = Except.ok () := by
    rw [verifyBuildFlags, if_neg hlk, if_neg (by simp [hp])]
  refine ⟨?_, ?_, ?_, hlen⟩
  · simp [makeCCMImagesByPath, hmk]
  · simp [buildRun, hver, makeCCMImagesByPath, hmk, hp]
  · simp [buildRun, hver, makeCCMImagesByPath, hmk, hp]

/-- C8 witness: a by-path build in a fully successful environment returns
the 7-character short hash and the four actions ran in order. -/
theorem build_by_path_spec_witness :
    (makeCCMImagesByPath wBuildEnvOk wBuildOptsPath).1 = Except.ok "abc1234" ∧
    (buildRun wBuildEnvOk wBuildOptsPath).1 = Except.ok () ∧
    (buildRun wBuildEnvOk wBuildOptsPath).2 =
      [BuildEvent.gitShow "/repo",
       BuildEvent.makeTarget "/repo" "build-ccm-image-amd64",
       BuildEvent.makeTarget "/repo" "push-ccm-image-amd64",
       BuildEvent.makeTarget "/repo" "build-node-image-linux-amd64",
       BuildEvent.makeTarget "/repo" "push-node-image-linux-amd64",
       BuildEvent.revParse "/repo"] ∧
    ("abc1234" : String).length = 7 :=
  build_by_path_spec wBuildEnvOk "/repo" "abc1234" (by decide) rfl (fun _ => rfl) rfl (by decide)

/-- C9: when building by tag, the result of the worktree checkout is
discarded: with a failing checkout recorded in the trace and every other
call succeeding, the by-tag build still returns the revision of the
unchanged clone HEAD as the tag, Build reports success, and no error is
reported for the failed checkout. -/
theorem build_checkout_discarded (env : BuildEnv) (tag h : String)
    (htag : tag ≠ "")
    (hck : env.checkoutOk = false)
    (hclone : env.cloneResult = Except.ok ())
    (hwt : env.worktreeResult = Except.ok ())
    (hshow : env.gitShowResult = Except.ok ())
    (hmake : ∀ t, env.makeResult t = Except.ok ())
    (hrev : env.revParseResult = Except.ok h) :
    (makeCCMImagesByTag env ⟨"cloud-provider-azure", "", tag⟩ ccmURL).1 = Except.ok h ∧
    (buildRun env ⟨"cloud-provider-azure", "", tag⟩).1 = Except.ok () ∧
    BuildEvent.checkout ("refs/tags/" ++ tag) false ∈
      (buildRun env ⟨"cloud-provider-azure", "", tag⟩).2 := by
  have hrun : runMakeTargets env ccmClonePath ccmMakeTargets =
      (Except.ok (),
       [BuildEvent.makeTarget ccmClonePath "build-ccm-image-amd64",
        BuildEvent.makeTarget ccmClonePath "push-ccm-image-amd64",
        BuildEvent.makeTarget ccmClonePath "build-node-image-linux-amd64",
        BuildEvent.makeTarget ccmClonePath "push-node-image-linux-amd64"]) := by
    simp [runMakeTargets, ccmMakeTargets, hmake]
  have hmk : makeCCMImages env ccmClonePath =
      (Except.ok h,
       [BuildEvent.gitShow ccmClonePath,
        BuildEvent.makeTarget ccmClonePath "build-ccm-image-amd64",
        BuildEvent.makeTarget ccmClonePath "push-ccm-image-amd64",
        BuildEvent.makeTarget ccmClonePath "build-node-image-linux-amd64",
        BuildEvent.makeTarget ccmClonePath "push-node-image-linux-amd64",
        BuildEvent.revParse ccmClonePath]) := by
    simp [makeCCMImages, hshow, hrun, hrev]
  have htagres : makeCCMImagesByTag env ⟨"cloud-provider-azure", "", tag⟩ ccmURL =
      (Except.ok h,
       BuildEvent.gitClone ccmURL ccmClonePath ::
         BuildEvent.checkout ("refs/tags/" ++ tag) env.checkoutOk ::
         [BuildEvent.gitShow ccmClonePath,
          BuildEvent.makeTarget ccmClonePath "build-ccm-image-amd64",
          BuildEvent.makeTarget ccmClonePath "push-ccm-image-amd64",
          BuildEvent.makeTarget ccmClonePath "build-node-image-linux-amd64",
          BuildEvent.makeTarget ccmClonePath "push-node-image-linux-amd64",
          BuildEvent.revParse ccmClonePath]) := by
    simp [makeCCMImagesByTag, hclone, hwt, hmk]
  have hlk : ¬ lookupComponent "cloud-provider-azure" = none := by decide
  have hver : verifyBuildFlags ⟨"cloud-provider-azure", "", tag⟩ = Except.ok () := by
    rw [verifyBuildFlags, if_neg hlk, if_neg (by simp [htag])]
  have hurl : (lookupComponent "cloud-provider-azure").getD "" = ccmURL := by decide
  refine ⟨?_, ?_, ?_⟩
  · rw [htagres]
  · simp [buildRun, hver, hurl, htagres]
  · rw [← hck]
    simp [buildRun, hver, hurl, htagres]

/-- C9 witness: a by-tag build whose checkout fails still succeeds and
returns the clone default HEAD revision. -/
theorem build_checkout_discarded_witness :
    (makeCCMImagesByTag wBuildEnvCheckoutFail wBuildOptsTag ccmURL).1 =
      Except.ok "defhead7" ∧
    (buildRun wBuildEnvCheckoutFail wBuildOptsTag).1 = Except.ok () ∧
    BuildEvent.checkout ("refs/tags/" ++ "v1.24.4") false ∈
      (buildRun wBuildEnvCheckoutFail wBuildOptsTag).2 :=
  build_checkout_discarded wBuildEnvCheckoutFail "v1.24.4" "defhead7" (by decide) rfl rfl rfl
    rfl (fun _ => rfl) rfl

/-- C2 counterexample: rendering is not a pure function of the unordered
substitution mapping, and a mapping key absent from the template can change
the result.  With template "A" (byte 65) and mapping entries A maps to B and
B maps to C: the key B does not occur in the template, yet rendering with the
two entries in one iteration order yields "C" and in the other order yields
"B", and dropping the non-occurring entry also yields "B". -/
theorem renderTemplate_pure_counterexample :
    renderTemplate [65] [([65], [66]), ([66], [67])] = [67] ∧
    renderTemplate [65] [([66], [67]), ([65], [66])] = [66] ∧
    renderTemplate [65] [([65], [66])] = [66] ∧
    ¬ occursSeq [66] [65] ∧
    ([67] : List Nat) ≠ [66] := by
  have hone : ∀ a b : Nat, strReplaceAll [a] [a] [b] = [b] := by
    intro a b
    rw [strReplaceAll, if_neg (by simp)]
    rw [scanReplace_cons_pos _ _ _ _ (by simp [List.isPrefixOf])]
    simp [scanReplace_nil]
  have hB : ¬ occursSeq [66] [65] := by
    intro hocc
    rw [← containsSeq_iff] at hocc
    revert hocc
    decide
  have hnoop : strReplaceAll [65] [66] [67] = [65] :=
    strReplaceAll_of_not_occurs [66] [67] [65] hB
  refine ⟨?_, ?_, ?_, hB, by decide⟩
  · show strReplaceAll (strReplaceAll [65] [65] [66]) [66] [67] = [67]
    rw [hone 65 66, hone 66 67]
  · show strReplaceAll (strReplaceAll [65] [66] [67]) [65] [66] = [66]
    rw [hnoop, hone 65 66]
  · show strReplaceAll [65] [65] [66] = [66]
    exact hone 65 66

/-- C2 (amended): each single replacement step of the template renderer is
pure and total in the source-scan sense: for a non-empty key, the current
text decomposes uniquely along the left-to-right non-overlapping scan into
key-free pieces joined by the key, and the step output is exactly the same
pieces joined by the mapped value (so every scanned occurrence of the key is
replaced and all other text is retained literally); a key that does not
occur in the current text leaves it unchanged, and a mapping none of whose
keys occurs in the template leaves the template unchanged, so placeholder
tokens without a mapping entry stay in the output as literal text.  The
composite rendering is the sequential fold of these steps in map-iteration
order and is order-sensitive when a key occurs in another entry's value. -/
theorem renderTemplate_substitution_spec :
    (∀ pat rep s : List Nat, pat ≠ [] →
      strReplaceAll s pat rep = interseq rep (splitOnSeq pat s) ∧
      interseq pat (splitOnSeq pat s) = s ∧
      (∀ p ∈ splitOnSeq pat s, ¬ occursSeq pat p)) ∧
    (∀ pat rep s : List Nat, ¬ occursSeq pat s → strReplaceAll s pat rep = s) ∧
    (∀ tmpl : List Nat, ∀ subst : List (List Nat × List Nat),
      (∀ kv ∈ subst, ¬ occursSeq kv.1 tmpl) → renderTemplate tmpl subst = tmpl) := by
  refine ⟨?_, ?_, ?_⟩
  · intro pat rep s hpat
    refine ⟨?_, interseq_splitOnSeq pat hpat s, splitOnSeq_free pat hpat s⟩
    rw [strReplaceAll, if_neg hpat]
    exact scanReplace_eq_interseq pat hpat rep s
  · intro pat rep s h
    exact strReplaceAll_of_not_occurs pat rep s h
  · intro tmpl subst
    induction subst with
    | nil => intro _; simp [renderTemplate]
    | cons kv rest ih =>
      intro h
      have h0 := h kv (List.mem_cons_self _ _)
      have hstep : strReplaceAll tmpl kv.1 kv.2 = tmpl :=
        strReplaceAll_of_not_occurs kv.1 kv.2 tmpl h0
      have hfold : renderTemplate tmpl (kv :: rest) =
          renderTemplate (strReplaceAll tmpl kv.1 kv.2) rest := by
        simp [renderTemplate]
      rw [hfold, hstep]
      exact ih (fun kv2 hm => h kv2 (List.mem_cons_of_mem _ hm))

/-- C2 witness: the amended specification evaluated at concrete inputs: one
replacement step on text "BA" with key "A" and value "C", and a no-op
replacement with a key that does not occur. -/
theorem renderTemplate_substitution_spec_witness :
    strReplaceAll [66, 65] [65] [67] = interseq [67] (splitOnSeq [65] [66, 65]) ∧
    strReplaceAll [66, 65] [68] [67] = [66, 65] := by
  refine ⟨(renderTemplate_substitution_spec.1 [65] [67] [66, 65] (by decide)).1, ?_⟩
  apply renderTemplate_substitution_spec.2.1
  intro hocc
  rw [← containsSeq_iff] at hocc
  revert hocc
  decide

/-- C3: in createAKSWithCustomConfig the request body is exactly the
rendered outer document with every scanned occurrence of CUSTOM_CONFIG
replaced by the base64 encoding of the rendered inner document: the rendered
outer document decomposes into placeholder-free pieces joined by the
placeholder, and the body is the same pieces joined by the encoded inner
document, which itself can never contain the placeholder (base64 output has
no underscore byte); moreover every CUSTOM_CONFIG occurrence of the outer
template survives the six placeholder substitutions, whose keys cannot
create, destroy or overlap a CUSTOM_CONFIG occurrence, so the encoded inner
document appears verbatim in the body at the template occurrence. -/
theorem aksRequestBody_customConfig_spec (cfg : AKSConfig)
    (basicLB customCfg imageTag : List Nat) :
    (aksRequestBody cfg basicLB customCfg imageTag =
      interseq (b64encode (renderedCustomConfig cfg customCfg imageTag))
        (splitOnSeq customConfigPlaceholder (renderedClusterConfig cfg basicLB))) ∧
    (interseq customConfigPlaceholder
        (splitOnSeq customConfigPlaceholder (renderedClusterConfig cfg basicLB)) =
      renderedClusterConfig cfg basicLB) ∧
    (∀ p ∈ splitOnSeq customConfigPlaceholder (renderedClusterConfig cfg basicLB),
      ¬ occursSeq customConfigPlaceholder p) ∧
    (¬ occursSeq customConfigPlaceholder
        (b64encode (renderedCustomConfig cfg customCfg imageTag))) ∧
    (occursSeq customConfigPlaceholder basicLB →
      occursSeq customConfigPlaceholder (renderedClusterConfig cfg basicLB)) ∧
    (occursSeq customConfigPlaceholder basicLB →
      ∃ l r, aksRequestBody cfg basicLB customCfg imageTag =
        l ++ b64encode (renderedCustomConfig cfg customCfg imageTag) ++ r) := by
  have hpl : customConfigPlaceholder ≠ [] := by decide
  have hkeys : ∀ kv ∈ replacingList cfg,
      kv.1 = strBytes "AKS_CLUSTER_ID" ∨ kv.1 = strBytes "CLUSTER_NAME" ∨
      kv.1 = strBytes "AZURE_LOCATION" ∨ kv.1 = strBytes "AZURE_CLIENT_ID" ∨
      kv.1 = strBytes "AZURE_CLIENT_SECRET" ∨ kv.1 = strBytes "KUBERNETES_VERSION" := by
    intro kv hm
    simp only [replacingList, List.mem_cons, List.not_mem_nil, or_false] at hm
    rcases hm with rfl | rfl | rfl | rfl | rfl | rfl <;> simp
  have hcond : ∀ kv ∈ replacingList cfg,
      kv.1 ≠ [] ∧ noOverlapCond kv.1 customConfigPlaceholder := by
    intro kv hm
    rcases hkeys kv hm with h | h | h | h | h | h <;> rw [h] <;>
      exact ⟨by decide, noOverlapb_sound _ _ (by decide)⟩
  have hpersist : occursSeq customConfigPlaceholder basicLB →
      occursSeq customConfigPlaceholder (renderedClusterConfig cfg basicLB) := by
    intro h
    exact occursSeq_renderTemplate customConfigPlaceholder (replacingList cfg) hcond
      basicLB h
  have hbody : aksRequestBody cfg basicLB customCfg imageTag =
      interseq (b64encode (renderedCustomConfig cfg customCfg imageTag))
        (splitOnSeq customConfigPlaceholder (renderedClusterConfig cfg basicLB)) := by
    rw [aksRequestBody, strReplaceAll, if_neg hpl]
    exact scanReplace_eq_interseq customConfigPlaceholder hpl _ _
  refine ⟨hbody, interseq_splitOnSeq customConfigPlaceholder hpl _,
    splitOnSeq_free customConfigPlaceholder hpl _,
    not_occursSeq_placeholder_b64 _, hpersist, ?_⟩
  intro h
  have hocc := hpersist h
  obtain ⟨p1, ps, hps⟩ :=
    splitOnSeq_exists_cons customConfigPlaceholder (renderedClusterConfig cfg basicLB)
  rcases ps with _ | ⟨q, qs⟩
  · exfalso
    have hrec := interseq_splitOnSeq customConfigPlaceholder hpl
      (renderedClusterConfig cfg basicLB)
    rw [hps] at hrec
    simp only [interseq] at hrec
    have hfree := splitOnSeq_free customConfigPlaceholder hpl
      (renderedClusterConfig cfg basicLB) p1 (by rw [hps]; exact List.mem_cons_self _ _)
    rw [hrec] at hfree
    exact hfree hocc
  · refine ⟨p1, interseq (b64encode (renderedCustomConfig cfg customCfg imageTag)) (q :: qs), ?_⟩
    rw [hbody, hps]
    simp only [interseq]

/-- C3 witness: the specification evaluated at a concrete configuration and
a small concrete template pair containing the placeholder. -/
theorem aksRequestBody_customConfig_spec_witness :
    occursSeq customConfigPlaceholder customConfigPlaceholder ∧
    (∃ l r, aksRequestBody wCfg customConfigPlaceholder [107] [116] =
      l ++ b64encode (renderedCustomConfig wCfg [107] [116]) ++ r) := by
  have hocc : occursSeq customConfigPlaceholder customConfigPlaceholder :=
    ⟨[], [], by simp⟩
  exact ⟨hocc,
    (aksRequestBody_customConfig_spec wCfg customConfigPlaceholder [107] [116]).2.2.2.2.2 hocc⟩

/-- C4: the credential poller embeds wait.PollImmediate(10s, 3min), which
makes one immediate attempt plus one attempt per 10-second tick up to the
3-minute ceiling (pollMaxAttempts = 1 + 180 / 10).  For any run of "404 Not
Found" responses followed by a success within the ceiling it returns that
success; for an unbroken run of "404 Not Found" responses filling the
ceiling it returns a timeout failure; for any error that does not contain
"404 Not Found" it returns that failure immediately, performing no attempt
after it. -/
theorem getAKSKubeconfig_poll_spec (attempts : Nat → CredAttempt) (k : Nat) :
    (∀ ks, (∀ j, j < k → isNotFoundAttempt (attempts j)) → k < pollMaxAttempts →
      attempts k = CredAttempt.ok ks →
      pollCreds attempts 0 pollMaxAttempts =
        (PollOutcome.ok k ks, (List.range (k + 1)).map (fun j => UpEvent.pollAttempt j))) ∧
    ((∀ j, j < pollMaxAttempts → isNotFoundAttempt (attempts j)) →
      pollCreds attempts 0 pollMaxAttempts =
        (PollOutcome.timedOut,
         (List.range pollMaxAttempts).map (fun j => UpEvent.pollAttempt j))) ∧
    (∀ m, (∀ j, j < k → isNotFoundAttempt (attempts j)) → k < pollMaxAttempts →
      attempts k = CredAttempt.err m → containsSeq msg404 m = false →
      pollCreds attempts 0 pollMaxAttempts =
        (PollOutcome.fatal k m,
         (List.range (k + 1)).map (fun j => UpEvent.pollAttempt j))) := by
  refine ⟨?_, ?_, ?_⟩
  · intro ks hnf hk hok
    have h := pollCreds_success attempts k 0 pollMaxAttempts
      (fun j hj => by simpa using hnf j hj) hk ks (by simpa using hok)
    simpa using h
  · intro hnf
    have h := pollCreds_timeout attempts pollMaxAttempts 0
      (fun j hj => by simpa using hnf j hj)
    simpa using h
  · intro m hnf hk herr hnc
    have h := pollCreds_fatal attempts k 0 pollMaxAttempts
      (fun j hj => by simpa using hnf j hj) hk m (by simpa using herr) hnc
    simpa using h

/-- C4 witness: one transient "404 Not Found" response followed by a
success returns that success after exactly two attempts. -/
theorem getAKSKubeconfig_poll_spec_witness :
    pollCreds wAttemptsRetry 0 pollMaxAttempts =
      (PollOutcome.ok 1 [[107]], [UpEvent.pollAttempt 0, UpEvent.pollAttempt 1]) := by
  have h := (getAKSKubeconfig_poll_spec wAttemptsRetry 1).1 [[107]]
    (fun j hj => by
      have hj0 : j = 0 := by omega
      subst hj0
      exact ⟨strBytes "status 404 Not Found", rfl, by decide⟩)
    (by decide) rfl
  rw [h]
  decide

/-- C5: a cluster-creation HTTP response with status at least 400 makes
createAKSWithCustomConfig return an error after exactly one request with no
retry, and Up then aborts: its trace ends at the request, with no credential
client construction, no credential polling attempt and no kubeconfig write. -/
theorem up_aborts_on_http_error (cfg : AKSConfig) (env : UpEnv)
    (hcred : env.credOk = true) (rg : List Nat) (hrg : env.rgResult = Except.ok rg)
    (tok : List Nat) (htok : env.tokenResult = Except.ok tok)
    (tag : List Nat) (htag : env.imagesResult = Except.ok tag)
    (basicLB customCfg : List Nat)
    (hlb : env.aksEnv.basicLBFile = Except.ok basicLB)
    (hcc : env.aksEnv.customConfigFile = Except.ok customCfg)
    (status : Nat)
    (hhttp : env.aksEnv.httpResponse (aksRequestBody cfg basicLB customCfg tag) =
      Except.ok status)
    (hstatus : 400 ≤ status) :
    (createAKSWithCustomConfig cfg env.aksEnv tok tag).1 =
      Except.error (strBytes "failed to create the AKS cluster") ∧
    (createAKSWithCustomConfig cfg env.aksEnv tok tag).2 =
      [UpEvent.readBasicLB, UpEvent.readCustomConfig,
       UpEvent.sentRequest (aksRequestBody cfg basicLB customCfg tag)] ∧
    (upRun cfg env).1 = UpOutcome.failed (strBytes "failed to create the AKS cluster: " ++
      strBytes "failed to create the AKS cluster") ∧
    (upRun cfg env).2 = [UpEvent.credInit, UpEvent.createRG, UpEvent.getToken,
      UpEvent.makeImages, UpEvent.readBasicLB, UpEvent.readCustomConfig,
      UpEvent.sentRequest (aksRequestBody cfg basicLB customCfg tag)] ∧
    ((upRun cfg env).2.countP (fun e => match e with
      | UpEvent.sentRequest _ => true
      | _ => false)) = 1 ∧
    (∀ i, UpEvent.pollAttempt i ∉ (upRun cfg env).2) ∧
    (∀ pth c, UpEvent.writeKubeconfig pth c ∉ (upRun cfg env).2) ∧
    UpEvent.newClusterClient ∉ (upRun cfg env).2 := by
  have haks : createAKSWithCustomConfig cfg env.aksEnv tok tag =
      (Except.error (strBytes "failed to create the AKS cluster"),
       [UpEvent.readBasicLB, UpEvent.readCustomConfig,
        UpEvent.sentRequest (aksRequestBody cfg basicLB customCfg tag)]) := by
    simp [createAKSWithCustomConfig, hlb, hcc, hhttp, hstatus]
  have hup : upRun cfg env =
      (UpOutcome.failed (strBytes "failed to create the AKS cluster: " ++
        strBytes "failed to create the AKS cluster"),
       [UpEvent.credInit, UpEvent.createRG, UpEvent.getToken, UpEvent.makeImages,
        UpEvent.readBasicLB, UpEvent.readCustomConfig,
        UpEvent.sentRequest (aksRequestBody cfg basicLB customCfg tag)]) := by
    simp [upRun, hcred, hrg, htok, htag, haks]
  refine ⟨by rw [haks], by rw [haks], by rw [hup], by rw [hup], ?_, ?_, ?_, ?_⟩
  · rw [hup]
    simp [List.countP, List.countP.go]
  · intro i
    rw [hup]
    simp
  · intro pth c
    rw [hup]
    simp
  · rw [hup]
    simp

/-- C5 witness: a 404 response in an otherwise successful environment. -/
theorem up_aborts_on_http_error_witness :
    (upRun wCfg wUpEnv404).1 =
      UpOutcome.failed (strBytes "failed to create the AKS cluster: " ++
        strBytes "failed to create the AKS cluster") ∧
    (∀ i, UpEvent.pollAttempt i ∉ (upRun wCfg wUpEnv404).2) ∧
    (∀ pth c, UpEvent.writeKubeconfig pth c ∉ (upRun wCfg wUpEnv404).2) ∧
    UpEvent.newClusterClient ∉ (upRun wCfg wUpEnv404).2 := by
  have h := up_aborts_on_http_error wCfg wUpEnv404 rfl (strBytes "rgid") rfl
    (strBytes "tok") rfl (strBytes "tag") rfl [] [] rfl rfl 404 rfl (by omega)
  exact ⟨h.2.2.1, h.2.2.2.2.2.1, h.2.2.2.2.2.2.1, h.2.2.2.2.2.2.2⟩

/-- C6: on successful credential retrieval, getAKSKubeconfig creates the
fixed output directory and writes the raw bytes of the first returned
credential entry, verbatim, to the deterministic path
kubeconfigDir/resourceGroup_clusterName.kubeconfig; the write event carries
exactly those bytes and that path, and it is the only write; if the
directory creation or the write fails, an error is returned instead. -/
theorem getAKSKubeconfig_write_spec (cfg : AKSConfig) (env : KubeconfigEnv)
    (hclient : env.clientOk = true) (i : Nat) (k0 : List Nat) (rest : List (List Nat))
    (hpoll : (pollCreds env.attempts 0 pollMaxAttempts).1 = PollOutcome.ok i (k0 :: rest)) :
    (env.mkdirOk = true → env.writeOk = true →
      (getAKSKubeconfig cfg env).1 = Except.ok () ∧
      UpEvent.mkdirKubeconfigDir ∈ (getAKSKubeconfig cfg env).2 ∧
      UpEvent.writeKubeconfig (destPath cfg) k0 ∈ (getAKSKubeconfig cfg env).2 ∧
      (∀ pth c, UpEvent.writeKubeconfig pth c ∈ (getAKSKubeconfig cfg env).2 →
        pth = destPath cfg ∧ c = k0)) ∧
    (env.mkdirOk = false ∨ env.writeOk = false →
      ∃ msg, (getAKSKubeconfig cfg env).1 = Except.error msg) ∧
    destPath cfg = defaultKubeconfigDirBytes ++ strBytes "/" ++ cfg.resourceGroupName ++
      strBytes "_" ++ cfg.clusterName ++ strBytes ".kubeconfig" := by
  have hclient2 : ¬ env.clientOk = false := by simp [hclient]
  refine ⟨?_, ?_, rfl⟩
  · intro hmk hw
    have hmk2 : ¬ env.mkdirOk = false := by simp [hmk]
    have hw2 : ¬ env.writeOk = false := by simp [hw]
    have hres : getAKSKubeconfig cfg env =
        (Except.ok (),
         UpEvent.newClusterClient :: (pollCreds env.attempts 0 pollMaxAttempts).2 ++
           [UpEvent.mkdirKubeconfigDir, UpEvent.writeKubeconfig (destPath cfg) k0]) := by
      simp only [getAKSKubeconfig, if_neg hclient2, hpoll]
      rw [if_neg hmk2, if_neg hw2]
    rw [hres]
    refine ⟨rfl, by simp, by simp, ?_⟩
    intro pth c hmem
    simp only [List.cons_append, List.mem_cons, List.mem_append, List.not_mem_nil,
      or_false] at hmem
    rcases hmem with h | h | h | h
    · exact absurd h (by simp)
    · obtain ⟨j, hj⟩ := pollCreds_events_shape env.attempts pollMaxAttempts 0 _ h
      exact absurd hj (by simp)
    · exact absurd h (by simp)
    · injection h with h1 h2
      exact ⟨h1, h2⟩
  · intro hor
    rcases hor with hmk | hw
    · by_cases hwv : env.writeOk = false
      · refine ⟨strBytes "failed to mkdir the default kubeconfig dir", ?_⟩
        simp only [getAKSKubeconfig, if_neg hclient2, hpoll]
        rw [if_pos hmk]
      · refine ⟨strBytes "failed to mkdir the default kubeconfig dir", ?_⟩
        simp only [getAKSKubeconfig, if_neg hclient2, hpoll]
        rw [if_pos hmk]
    · by_cases hmkv : env.mkdirOk = false
      · refine ⟨strBytes "failed to mkdir the default kubeconfig dir", ?_⟩
        simp only [getAKSKubeconfig, if_neg hclient2, hpoll]
        rw [if_pos hmkv]
      · refine ⟨strBytes "failed to write kubeconfig", ?_⟩
        simp only [getAKSKubeconfig, if_neg hclient2, hpoll]
        rw [if_neg hmkv, if_pos hw]

/-- C6 witness: with credentials available on the first attempt and a
working file system, the kubeconfig bytes are written verbatim to the
deterministic path. -/
theorem getAKSKubeconfig_write_spec_witness :
    (getAKSKubeconfig wCfg wKubeEnvOk).1 = Except.ok () ∧
    UpEvent.writeKubeconfig (destPath wCfg) [107] ∈ (getAKSKubeconfig wCfg wKubeEnvOk).2 := by
  have h := getAKSKubeconfig_write_spec wCfg wKubeEnvOk rfl 0 [107] []
    (by decide)
  obtain ⟨h1, -, -⟩ := h
  obtain ⟨ha, -, hc, -⟩ := h1 rfl rfl
  exact ⟨ha, hc⟩

/-- C1 counterexample: the claim orders the identity-token acquisition
before the resource-group creation, so under the claim no run may create
the resource group without the token step having completed successfully.
In the code the resource group is created first: in a concrete environment
whose GetToken call fails, the trace still contains the resource-group
step, refuting the claimed order. -/
theorem up_token_before_rg_counterexample :
    (¬ ∀ cfg env, UpEvent.createRG ∈ (upRun cfg env).2 →
        ∃ tok, env.tokenResult = Except.ok tok) ∧
    (upRun wCfg wUpEnvTokenFail).2 =
      [UpEvent.credInit, UpEvent.createRG, UpEvent.getToken] ∧
    wUpEnvTokenFail.tokenResult = Except.error (strBytes "bad") := by
  refine ⟨?_, rfl, rfl⟩
  intro h
  obtain ⟨tok, htok⟩ := h wCfg wUpEnvTokenFail (by decide)
  rw [show wUpEnvTokenFail.tokenResult = Except.error (strBytes "bad") from rfl] at htok
  exact absurd htok (by simp)

/-- C1 (amended): in the Up workflow the provisioning steps execute
strictly in this order - initialize the credential object, create-or-update
the resource group, obtain an identity token, build the CCM and CNM images,
render the cluster-creation payload (substituting all known placeholders in
both templates and base64-encoding the inner rendered bytes before splicing
them into the outer template), submit the creation request, and fetch the
kubeconfig - and no later step begins before all earlier steps have
completed successfully; in particular the request payload sent is always
the fully rendered body, and the credential client is constructed only
after the creation request returned a status below 400. -/
theorem up_step_order (cfg : AKSConfig) (env : UpEnv) :
    (UpEvent.createRG ∈ (upRun cfg env).2 → env.credOk = true) ∧
    (UpEvent.getToken ∈ (upRun cfg env).2 →
      UpEvent.createRG ∈ (upRun cfg env).2 ∧ ∃ rg, env.rgResult = Except.ok rg) ∧
    (UpEvent.makeImages ∈ (upRun cfg env).2 →
      UpEvent.getToken ∈ (upRun cfg env).2 ∧ ∃ tok, env.tokenResult = Except.ok tok) ∧
    (UpEvent.readBasicLB ∈ (upRun cfg env).2 →
      UpEvent.makeImages ∈ (upRun cfg env).2 ∧ ∃ tag, env.imagesResult = Except.ok tag) ∧
    (∀ payload, UpEvent.sentRequest payload ∈ (upRun cfg env).2 →
      ∃ basicLB customCfg tag,
        env.aksEnv.basicLBFile = Except.ok basicLB ∧
        env.aksEnv.customConfigFile = Except.ok customCfg ∧
        env.imagesResult = Except.ok tag ∧
        payload = aksRequestBody cfg basicLB customCfg tag) ∧
    (UpEvent.newClusterClient ∈ (upRun cfg env).2 →
      ∃ payload status, UpEvent.sentRequest payload ∈ (upRun cfg env).2 ∧
        env.aksEnv.httpResponse payload = Except.ok status ∧ status < 400) := by
  by_cases hcred : env.credOk = false
  · have hup : (upRun cfg env).2 = [UpEvent.credInit] := by
      simp [upRun, hcred]
    refine ⟨?_, ?_, ?_, ?_, ?_, ?_⟩ <;> simp [hup]
  · have hcred2 : env.credOk = true := by
      revert hcred
      cases env.credOk <;> simp
    rcases hrg : env.rgResult with e | rg
    · have hup : (upRun cfg env).2 = [UpEvent.credInit, UpEvent.createRG] := by
        simp [upRun, hcred, hrg]
      refine ⟨fun _ => hcred2, ?_, ?_, ?_, ?_, ?_⟩ <;> simp [hup]
    · rcases htok : env.tokenResult with e | tok
      · have hup : (upRun cfg env).2 =
            [UpEvent.credInit, UpEvent.createRG, UpEvent.getToken] := by
          simp [upRun, hcred, hrg, htok]
        refine ⟨fun _ => hcred2, fun _ => ⟨by simp [hup], rg, rfl⟩, ?_, ?_, ?_, ?_⟩ <;>
          simp [hup]
      · rcases htag : env.imagesResult with e | tag
        · have hup : (upRun cfg env).2 =
              [UpEvent.credInit, UpEvent.createRG, UpEvent.getToken,
               UpEvent.makeImages] := by
            simp [upRun, hcred, hrg, htok, htag]
          refine ⟨fun _ => hcred2, fun _ => ⟨by simp [hup], rg, rfl⟩,
            fun _ => ⟨by simp [hup], tok, rfl⟩, ?_, ?_, ?_⟩ <;> simp [hup]
        · rcases hlb : env.aksEnv.basicLBFile with e | basicLB
          · have haks : createAKSWithCustomConfig cfg env.aksEnv tok tag =
                (Except.error (strBytes "failed to read cluster config file: " ++ e),
                 [UpEvent.readBasicLB]) := by
              simp [createAKSWithCustomConfig, hlb]
            have hup : (upRun cfg env).2 =
                [UpEvent.credInit, UpEvent.createRG, UpEvent.getToken,
                 UpEvent.makeImages, UpEvent.readBasicLB] := by
              simp [upRun, hcred, hrg, htok, htag, haks]
            refine ⟨fun _ => hcred2, fun _ => ⟨by simp [hup], rg, rfl⟩,
              fun _ => ⟨by simp [hup], tok, rfl⟩,
              fun _ => ⟨by simp [hup], tag, rfl⟩, ?_, ?_⟩ <;> simp [hup]
          · rcases hcc : env.aksEnv.customConfigFile with e | customCfg
            · have haks : createAKSWithCustomConfig cfg env.aksEnv tok tag =
                  (Except.error (strBytes "failed to read custom config file: " ++ e),
                   [UpEvent.readBasicLB, UpEvent.readCustomConfig]) := by
                simp [createAKSWithCustomConfig, hlb, hcc]
              have hup : (upRun cfg env).2 =
                  [UpEvent.credInit, UpEvent.createRG, UpEvent.getToken,
                   UpEvent.makeImages, UpEvent.readBasicLB, UpEvent.readCustomConfig] := by
                simp [upRun, hcred, hrg, htok, htag, haks]
              refine ⟨fun _ => hcred2, fun _ => ⟨by simp [hup], rg, rfl⟩,
                fun _ => ⟨by simp [hup], tok, rfl⟩,
                fun _ => ⟨by simp [hup], tag, rfl⟩, ?_, ?_⟩ <;> simp [hup]
            · rcases hhttp : env.aksEnv.httpResponse (aksRequestBody cfg basicLB customCfg tag)
                  with e | status
              · have haks : createAKSWithCustomConfig cfg env.aksEnv tok tag =
                    (Except.error (strBytes "failed to send request: " ++ e),
                     [UpEvent.readBasicLB, UpEvent.readCustomConfig,
                      UpEvent.sentRequest (aksRequestBody cfg basicLB customCfg tag)]) := by
                  simp [createAKSWithCustomConfig, hlb, hcc, hhttp]
                have hup : (upRun cfg env).2 =
                    [UpEvent.credInit, UpEvent.createRG, UpEvent.getToken,
                     UpEvent.makeImages, UpEvent.readBasicLB, UpEvent.readCustomConfig,
                     UpEvent.sentRequest (aksRequestBody cfg basicLB customCfg tag)] := by
                  simp [upRun, hcred, hrg, htok, htag, haks]
                refine ⟨fun _ => hcred2, fun _ => ⟨by simp [hup], rg, rfl⟩,
                  fun _ => ⟨by simp [hup], tok, rfl⟩,
                  fun _ => ⟨by simp [hup], tag, rfl⟩, ?_, ?_⟩
                · intro payload hmem
                  rw [hup] at hmem
                  simp at hmem
                  exact ⟨basicLB, customCfg, tag, rfl, rfl, rfl, hmem⟩
                · intro hmem
                  rw [hup] at hmem
                  simp at hmem
              · by_cases hstat : 400 ≤ status
                · have haks : createAKSWithCustomConfig cfg env.aksEnv tok tag =
                      (Except.error (strBytes "failed to create the AKS cluster"),
                       [UpEvent.readBasicLB, UpEvent.readCustomConfig,
                        UpEvent.sentRequest (aksRequestBody cfg basicLB customCfg tag)]) := by
                    simp [createAKSWithCustomConfig, hlb, hcc, hhttp, hstat]
                  have hup : (upRun cfg env).2 =
                      [UpEvent.credInit, UpEvent.createRG, UpEvent.getToken,
                       UpEvent.makeImages, UpEvent.readBasicLB, UpEvent.readCustomConfig,
                       UpEvent.sentRequest (aksRequestBody cfg basicLB customCfg tag)] := by
                    simp [upRun, hcred, hrg, htok, htag, haks]
                  refine ⟨fun _ => hcred2, fun _ => ⟨by simp [hup], rg, rfl⟩,
                    fun _ => ⟨by simp [hup], tok, rfl⟩,
                    fun _ => ⟨by simp [hup], tag, rfl⟩, ?_, ?_⟩
                  · intro payload hmem
                    rw [hup] at hmem
                    simp at hmem
                    exact ⟨basicLB, customCfg, tag, rfl, rfl, rfl, hmem⟩
                  · intro hmem
                    rw [hup] at hmem
                    simp at hmem
                · have haks : createAKSWithCustomConfig cfg env.aksEnv tok tag =
                      (Except.ok (),
                       [UpEvent.readBasicLB, UpEvent.readCustomConfig,
                        UpEvent.sentRequest (aksRequestBody cfg basicLB customCfg tag)]) := by
                    simp [createAKSWithCustomConfig, hlb, hcc, hhttp, hstat]
                  have hup : (upRun cfg env).2 =
                      [UpEvent.credInit, UpEvent.createRG, UpEvent.getToken,
                       UpEvent.makeImages, UpEvent.readBasicLB, UpEvent.readCustomConfig,
                       UpEvent.sentRequest (aksRequestBody cfg basicLB customCfg tag)] ++
                        (getAKSKubeconfig cfg env.kubeEnv).2 := by
                    rcases hkube : (getAKSKubeconfig cfg env.kubeEnv).1 with e | u <;>
                      simp [upRun, hcred, hrg, htok, htag, haks, hkube]
                  have hnosent : ∀ payload,
                      UpEvent.sentRequest payload ∉ (getAKSKubeconfig cfg env.kubeEnv).2 := by
                    intro payload hmem
                    rcases getAKSKubeconfig_events_shape cfg env.kubeEnv _ hmem with
                      h | ⟨i, h⟩ | h | ⟨pth, c, h⟩ <;> simp at h
                  refine ⟨fun _ => hcred2, fun _ => ⟨by simp [hup], rg, rfl⟩,
                    fun _ => ⟨by simp [hup], tok, rfl⟩,
                    fun _ => ⟨by simp [hup], tag, rfl⟩, ?_, ?_⟩
                  · intro payload hmem
                    rw [hup] at hmem
                    simp at hmem
                    rcases hmem with hmem | hmem
                    · exact ⟨basicLB, customCfg, tag, rfl, rfl, rfl, hmem⟩
                    · exact absurd hmem (hnosent payload)
                  · intro _
                    refine ⟨aksRequestBody cfg basicLB customCfg tag, status, ?_, hhttp, by omega⟩
                    rw [hup]
                    simp

/-- C1 witness: the ordering specification applied at a concrete
environment, discharging the membership hypothesis by evaluation. -/
theorem up_step_order_witness :
    UpEvent.createRG ∈ (upRun wCfg wUpEnvTokenFail).2 ∧
    ∃ rg, wUpEnvTokenFail.rgResult = Except.ok rg :=
  (up_step_order wCfg wUpEnvTokenFail).2.1 (by decide)
